import Mathlib

/-
Verification of the schema-type conversion engine in
`src/strawberry/schema/types/type.py` (class `GraphQLCoreConverter`).

Shallow embedding conventions:
* Python classes carrying `_type_definition` / `_enum_definition`
  attributes are modelled as named entries of an `Env` mapping class
  names to their attributes (`ClassInfo`); a type reference
  (`TypeRef.cls name`) is a reference to such a class, so cyclic type
  graphs are expressible (the graph lives in the `Env`).
* The converter state `ConvState` models the mutable converter object:
  its `type_map` cache (an association list where the most recent
  insertion wins, matching Python dict assignment), a fresh-id counter
  modelling Python object identity of every constructed schema type,
  and two instrumentation counters recording invocations of the field
  materializers (`from_field` / `from_input_field`), used to state the
  deferral claims.
* Python exceptions become an error type `ConvError`; unbounded
  recursion through the environment is handled with explicit fuel
  (`ConvError.outOfFuel` is a model artifact, not a Python behavior).
* Deferred field maps (the `fields=lambda: ...` closures) are modelled
  by storing the captured `TypeDefinition` in the constructed type and
  by separate functions `forceObjectFields` / `forceInterfaceFields`
  that run the closure body against the converter state at force time.
-/

namespace StrawberrySchema

/-- Tri-state-plus default values as they appear in the source: the
`undefined` sentinel from `strawberry.types.types`, the `UNSET` sentinel
from `strawberry.arguments`, Python `None` (explicit null), or a value. -/
inductive PyDefault where
  | undef
  | unset
  | none
  | val (v : Int)
deriving DecidableEq, Repr

/-- A default value as stored on the produced `GraphQLArgument` or
`GraphQLInputField`: either the graphql-core `Undefined` sentinel or the
Python value passed through. -/
inductive GqlDefault where
  | Undefined
  | py (v : PyDefault)
deriving DecidableEq, Repr

/-- Modelled from the spec: `StrawberryUnion` (strawberry/union.py is not
under src/). Per spec section 3, a UnionDefinition has a name,
description, an ordered set of member type references (named class
references), and a type-resolution function factory parameterized by the
type cache; the factory is modelled as an opaque identifier
`resolverFactoryId`, and applying it to the shared cache is modelled by
tagging the produced union with that identifier. -/
structure StrawberryUnion where
  name : String
  types : List String
  description : Option String
  resolverFactoryId : Nat
deriving DecidableEq, Repr

/-- A Python value used as a type reference: `None`, a class (looked up
by name in the environment), or a `StrawberryUnion` instance. -/
inductive TypeRef where
  | nothing
  | cls (name : String)
  | union (u : StrawberryUnion)
deriving DecidableEq, Repr

/-- Source `ArgumentDefinition` as consumed by the converter (the class itself
lives outside src/): name, type reference, list/optional/union flags,
child reference for list types, tri-state default value, description. -/
inductive ArgumentDefinition where
  | mk (name : Option String) (type_ : TypeRef)
       (is_list : Bool) (is_optional : Bool) ( is_union : Bool)
       (child : Option ArgumentDefinition)
       (default_value : PyDefault) (description : Option String)

def ArgumentDefinition.name : ArgumentDefinition → Option String
  | .mk n _ _ _ _ _ _ _ => n

def ArgumentDefinition.type_ : ArgumentDefinition → TypeRef
  | .mk _ t _ _ _ _ _ _ => t

def ArgumentDefinition.is_list : ArgumentDefinition → Bool
  | .mk _ _ l _ _ _ _ _ => l

def ArgumentDefinition.is_optional : ArgumentDefinition → Bool
  | .mk _ _ _ o _ _ _ _ => o

def ArgumentDefinition.is_union : ArgumentDefinition → Bool
  | .mk _ _ _ _ u _ _ _ => u

def ArgumentDefinition.child : ArgumentDefinition → Option ArgumentDefinition
  | .mk _ _ _ _ _ c _ _ => c

def ArgumentDefinition.default_value : ArgumentDefinition → PyDefault
  | .mk _ _ _ _ _ _ d _ => d

def ArgumentDefinition.description : ArgumentDefinition → Option String
  | .mk _ _ _ _ _ _ _ d => d

/-- Source `FieldDefinition` as consumed by the converter (the class itself
lives outside src/): name, type reference, list/optional/union flags,
child reference for list types, arguments, tri-state default value,
description, deprecation reason, subscription flag and an opaque
resolver handle (the callable supplied by the resolver provider). -/
inductive FieldDefinition where
  | mk (name : Option String) (type_ : TypeRef)
       (is_list : Bool) (is_optional : Bool) ( is_union : Bool)
       (child : Option FieldDefinition)
       (arguments : List ArgumentDefinition)
       (default_value : PyDefault) (description : Option String)
       (deprecation_reason : Option String)
       ( is_subscription : Bool) (resolverHandle : Nat)

def FieldDefinition.name : FieldDefinition → Option String
  | .mk n _ _ _ _ _ _ _ _ _ _ _ => n

def FieldDefinition.type_ : FieldDefinition → TypeRef
  | .mk _ t _ _ _ _ _ _ _ _ _ _ => t

def FieldDefinition.is_list : FieldDefinition → Bool
  | .mk _ _ l _ _ _ _ _ _ _ _ _ => l

def FieldDefinition.is_optional : FieldDefinition → Bool
  | .mk _ _ _ o _ _ _ _ _ _ _ _ => o

def FieldDefinition.is_union : FieldDefinition → Bool
  | .mk _ _ _ _ u _ _ _ _ _ _ _ => u

def FieldDefinition.child : FieldDefinition → Option FieldDefinition
  | .mk _ _ _ _ _ c _ _ _ _ _ _ => c

def FieldDefinition.arguments : FieldDefinition → List ArgumentDefinition
  | .mk _ _ _ _ _ _ a _ _ _ _ _ => a

def FieldDefinition.default_value : FieldDefinition → PyDefault
  | .mk _ _ _ _ _ _ _ d _ _ _ _ => d

def FieldDefinition.description : FieldDefinition → Option String
  | .mk _ _ _ _ _ _ _ _ d _ _ _ => d

def FieldDefinition.deprecation_reason : FieldDefinition → Option String
  | .mk _ _ _ _ _ _ _ _ _ r _ _ => r

def FieldDefinition.is_subscription : FieldDefinition → Bool
  | .mk _ _ _ _ _ _ _ _ _ _ s _ => s

def FieldDefinition.resolverHandle : FieldDefinition → Nat
  | .mk _ _ _ _ _ _ _ _ _ _ _ h => h

/-- Source `TypeDefinition` (strawberry/types/types.py, outside src/) as
consumed by the converter: name, description, kind flags, origin class
(used for the `is_type_of` instance check), fields and the list of
implemented interface TypeDefinitions. -/
inductive TypeDefinition where
  | mk (name : String) (description : Option String)
       ( is_input : Bool) ( is_interface : Bool)
       (origin : String)
       (fields : List FieldDefinition)
       (interfaces : List TypeDefinition)

def TypeDefinition.name : TypeDefinition → String
  | .mk n _ _ _ _ _ _ => n

def TypeDefinition.description : TypeDefinition → Option String
  | .mk _ d _ _ _ _ _ => d

def TypeDefinition.is_input : TypeDefinition → Bool
  | .mk _ _ i _ _ _ _ => i

def TypeDefinition.is_interface : TypeDefinition → Bool
  | .mk _ _ _ i _ _ _ => i

def TypeDefinition.origin : TypeDefinition → String
  | .mk _ _ _ _ o _ _ => o

def TypeDefinition.fields : TypeDefinition → List FieldDefinition
  | .mk _ _ _ _ _ f _ => f

def TypeDefinition.interfaces : TypeDefinition → List TypeDefinition
  | .mk _ _ _ _ _ _ i => i

/-- One enum value of an `EnumDefinition` (strawberry/enum.py, outside
src/): a name and a value. -/
structure EnumValue where
  name : String
  value : Int
deriving DecidableEq, Repr

/-- Source `EnumDefinition` (strawberry/enum.py, outside src/): the converter
reads its name (asserted non-None), values and description. -/
structure EnumDefinition where
  name : Option String
  values : List EnumValue
  description : Option String
deriving DecidableEq, Repr

/-- Modelled from the spec: the scalar markers understood by the scalar
registry (strawberry/scalars.py and schema/types/scalar.py are not under
src/). Spec section 4.4: built-in scalar markers map to built-in
primitive scalar types (string, integer, float, boolean, identifier);
custom scalars are memoized by name. -/
inductive ScalarMarker where
  | string
  | int
  | float
  | boolean
  | id
  | custom (name : String)
deriving DecidableEq, Repr

/-- The attributes of a Python class relevant to the converter: its
`_type_definition` attribute, its `_enum_definition` attribute, and
whether `is_scalar` recognizes it (and as which marker). -/
structure ClassInfo where
  type_definition : Option TypeDefinition
  enum_definition : Option EnumDefinition
  scalar : Option ScalarMarker

/-- The environment of Python classes: class name to attributes. -/
def Env := List (String × ClassInfo)

/-- A class with no attributes relevant to the converter. -/
def ClassInfo.empty : ClassInfo := ⟨none, none, none⟩

/-- Class lookup in the environment. -/
def lookupEnv : List (String × ClassInfo) → String → Option ClassInfo
  | [], _ => none
  | (k, v) :: rest, n => if k = n then some v else lookupEnv rest n

/-- Attribute lookup on a type reference: `None` and union instances
have none of the probed attributes; a class reference has the
attributes recorded in the environment (or none if unknown). -/
def attrs (env : Env) : TypeRef → ClassInfo
  | .cls n =>
    match lookupEnv env n with
    | some info => info
    | none => ClassInfo.empty
  | _ => ClassInfo.empty

/-- The `GraphQLEnumValue` wrapper from graphql-core: wraps the enum value. -/
structure GraphQLEnumValue where
  value : Int
deriving DecidableEq, Repr

/-- The concrete graphql-core schema types produced by the converter.
Named types carry a fresh `id` modelling Python object identity.
`object` and `interface` carry the `TypeDefinition` captured by their
deferred fields closure; `inputObject` carries its eagerly built field
map as (name, type, default, description) tuples; `union` carries its
resolved member types and the identifier of the resolver factory that
was applied to the shared cache. -/
inductive GType where
  | nonNull (inner : GType)
  | list (inner : GType)
  | object (id : Nat) (name : String) (deferred : TypeDefinition)
      (interfaces : List GType) (origin : String) (description : Option String)
  | interface (id : Nat) (name : String) (deferred : TypeDefinition)
      (interfaces : List GType) (description : Option String)
  | inputObject (id : Nat) (name : String)
      (fields : List (Option String × GType × GqlDefault × Option String))
      (description : Option String)
  | enum (id : Nat) (name : String) (values : List (String × GraphQLEnumValue))
      (description : Option String)
  | scalarBuiltin (name : String)
  | scalarCustom (id : Nat) (name : String)
  | union (id : Nat) (name : String) (types : List GType)
      (description : Option String) (resolveTypeFactory : Nat)

/-- Whether a concrete type is a `GraphQLObjectType` (the isinstance
check used by the union member assertion and the object cache hit). -/
def GType.isObjectImpl : GType → Bool
  | .object .. => true
  | _ => false

/-- Whether a concrete type is a `GraphQLInterfaceType`. -/
def GType.isInterfaceImpl : GType → Bool
  | .interface .. => true
  | _ => false

/-- Whether a concrete type is a `GraphQLEnumType`. -/
def GType.isEnumImpl : GType → Bool
  | .enum .. => true
  | _ => false

/-- Whether a concrete type is a `GraphQLUnionType`. -/
def GType.isUnionImpl : GType → Bool
  | .union .. => true
  | _ => false

/-- The resolver factory tag carried by a produced union type. -/
def GType.unionResolveFactory : GType → Option Nat
  | .union _ _ _ _ f => some f
  | _ => none

/-- The member types carried by a produced union type. -/
def GType.unionMembers : GType → Option (List GType)
  | .union _ _ ts _ _ => some ts
  | _ => none

/-- A wrapped resolver as wired by `from_field`: either the opaque
callable obtained from the resolver provider for a handle, or the
subscription identity pass-through `fun event rest => event`. -/
inductive Resolver where
  | external (handle : Nat)
  | eventIdentity
deriving DecidableEq, Repr

/-- Calling a resolver on an event value and further positional
arguments. The identity pass-through returns the event unchanged; the
behavior of external callables is supplied by the resolver provider and
is not defined by this module. -/
def Resolver.call (r : Resolver) (event : Int) (rest : List Int) : Option Int :=
  match r, rest with
  | .eventIdentity, _ => some event
  | .external _, _ => Option.none

/-- The `GraphQLArgument` record as produced by `from_argument`. -/
structure GraphQLArgument where
  type_ : GType
  default_value : GqlDefault
  description : Option String

/-- The `GraphQLField` record as produced by `from_field`. -/
structure GraphQLField where
  type_ : GType
  args : List (String × GraphQLArgument)
  resolve : Resolver
  subscribe : Option Resolver
  description : Option String
  deprecation_reason : Option String

/-- The definition stored in a cache entry. -/
inductive Definition where
  | typeDef (td : TypeDefinition)
  | enumDef (ed : EnumDefinition)
  | unionDef (u : StrawberryUnion)
  | scalarDef (m : ScalarMarker)

/-- The `ConcreteType` pair from schema/types/types.py (not under src/):
modelled from the spec cache entry, a (definition, implementation)
pair. -/
structure ConcreteType where
  definition : Definition
  implementation : GType

/-- The converter state: the `type_map` cache (most recent insertion
first, matching Python dict overwrite semantics for lookups), the
fresh-id counter for constructed schema types, and instrumentation
counters for materializer invocations. -/
structure ConvState where
  type_map : List (String × ConcreteType)
  nextId : Nat
  fieldCalls : Nat
  inputFieldCalls : Nat

/-- Name lookup in the type map, most recent binding first. -/
def lookupTypeMap : List (String × ConcreteType) → String → Option ConcreteType
  | [], _ => Option.none
  | (k, v) :: rest, n => if k = n then some v else lookupTypeMap rest n

/-- The assignment `self.type_map[name] = entry`. -/
def pushEntry (st : ConvState) (name : String) (entry : ConcreteType) : ConvState :=
  { st with type_map := (name, entry) :: st.type_map }

/-- Allocate a fresh object identity. -/
def bumpId (st : ConvState) : ConvState :=
  { st with nextId := st.nextId + 1 }

/-- The state of a freshly constructed `GraphQLCoreConverter`. -/
def initState : ConvState := ⟨[], 0, 0, 0⟩

/-- Conversion failures: the `TypeError` raise sites of the module, a
failed Python `assert`, the two union exceptions that the module
imports from strawberry.exceptions but never raises, and fuel
exhaustion (a model artifact standing for unbounded recursion). -/
inductive ConvError where
  | typeErrorUnexpectedType (type_ : TypeRef)
  | typeErrorWrongTypePassed (type_ : TypeRef)
  | typeErrorNotInputType (type_ : TypeRef)
  | assertionError
  | unallowedReturnTypeForUnion
  | wrongReturnTypeForUnion
  | outOfFuel
deriving DecidableEq, Repr

/-- The source alias `FIELD_ARGUMENT_TYPE = Union[FieldDefinition, ArgumentDefinition]`. -/
abbrev FIELD_ARGUMENT_TYPE := Sum FieldDefinition ArgumentDefinition

/-- Source `_is_list(field) = field.is_list`. -/
def _is_list : FIELD_ARGUMENT_TYPE → Bool
  | .inl f => f.is_list
  | .inr a => a.is_list

/-- Source `_is_optional(field) = field.is_optional`. -/
def _is_optional : FIELD_ARGUMENT_TYPE → Bool
  | .inl f => f.is_optional
  | .inr a => a.is_optional

/-- Source `_is_union(field) = field.is_union`. -/
def _is_union : FIELD_ARGUMENT_TYPE → Bool
  | .inl f => f.is_union
  | .inr a => a.is_union

/-- The `type` attribute of a field or argument definition. -/
def fatType : FIELD_ARGUMENT_TYPE → TypeRef
  | .inl f => f.type_
  | .inr a => a.type_

/-- The `child` attribute of a field or argument definition. -/
def fatChild : FIELD_ARGUMENT_TYPE → Option FIELD_ARGUMENT_TYPE
  | .inl f => (f.child).map Sum.inl
  | .inr a => (a.child).map Sum.inr

/-- Source `_is_object_type(type_) = hasattr(type_, "_type_definition")`. -/
def _is_object_type (env : Env) (t : TypeRef) : Bool :=
  (attrs env t).type_definition.isSome

/-- Source `_is_enum(type_) = hasattr(type_, "_enum_definition")`. -/
def _is_enum (env : Env) (t : TypeRef) : Bool :=
  (attrs env t).enum_definition.isSome

/-- Source `_is_scalar(type_) = is_scalar(type_)`. -/
def _is_scalar (env : Env) (t : TypeRef) : Bool :=
  (attrs env t).scalar.isSome

/-- Modelled from the spec: `get_resolver` (strawberry/resolvers.py is
not under src/). The resolver provider supplies an opaque callable per
field and the core only wraps it, so the wrapped resolver is modelled
as the external callable tagged with the field resolver handle. -/
def get_resolver (f : FieldDefinition) : Resolver :=
  .external f.resolverHandle

/-- Source `from_resolver(field) = get_resolver(field)`. -/
def from_resolver (f : FieldDefinition) : Resolver :=
  get_resolver f

/-- Source `from_enum_value(enum_value) = GraphQLEnumValue(enum_value.value)`. -/
def from_enum_value (ev : EnumValue) : GraphQLEnumValue :=
  ⟨ev.value⟩

/-- Modelled from the spec: `get_scalar_type` (schema/types/scalar.py is
not under src/). Per spec section 4.4, built-in markers map to the
built-in primitive scalar singletons and custom scalars are memoized by
name in the shared cache. -/
def get_scalar_type (marker : ScalarMarker) (st : ConvState) :
    Except ConvError (GType × ConvState) :=
  match marker with
  | .string => .ok (.scalarBuiltin "String", st)
  | .int => .ok (.scalarBuiltin "Int", st)
  | .float => .ok (.scalarBuiltin "Float", st)
  | .boolean => .ok (.scalarBuiltin "Boolean", st)
  | .id => .ok (.scalarBuiltin "ID", st)
  | .custom name =>
    match lookupTypeMap st.type_map name with
    | some entry => .ok (entry.implementation, st)
    | Option.none =>
      let g := GType.scalarCustom st.nextId name
      .ok (g, pushEntry (bumpId st) name ⟨.scalarDef marker, g⟩)

/-- Source `from_scalar(scalar) = get_scalar_type(scalar, self.type_map)`. -/
def from_scalar (marker : ScalarMarker) (st : ConvState) :
    Except ConvError (GType × ConvState) :=
  get_scalar_type marker st

/-- Source `from_enum`: cache check by `enum.name` (asserted non-None); on a
hit, the cached implementation is asserted to be a `GraphQLEnumType`
and returned; on a miss, the enum type is built from the values and
inserted into the cache. -/
def from_enum (enum : EnumDefinition) (st : ConvState) :
    Except ConvError (GType × ConvState) :=
  match enum.name with
  | Option.none => .error .assertionError
  | some name =>
    match lookupTypeMap st.type_map name with
    | some entry =>
      if entry.implementation.isEnumImpl then .ok (entry.implementation, st)
      else .error .assertionError
    | Option.none =>
      let g := GType.enum st.nextId name
        (enum.values.map fun item => (item.name, from_enum_value item))
        enum.description
      .ok (g, pushEntry (bumpId st) name ⟨.enumDef enum, g⟩)

mutual

/-- Source `get_graphql_type_field`: dispatch on the reference flags — list
first, then union (with the isinstance assert on `field.type`), else
`get_graphql_type(field.type)` — and finally wrap the result in
`GraphQLNonNull` unless the reference is optional. -/
def get_graphql_type_field (env : Env) :
    Nat → FIELD_ARGUMENT_TYPE → ConvState → Except ConvError (GType × ConvState)
  | 0, _, _ => .error .outOfFuel
  | fuel+1, field, st =>
    let inner : Except ConvError (GType × ConvState) :=
      if _is_list field then from_list env fuel field st
      else if _is_union field then
        match fatType field with
        | .union u => from_union env fuel u st
        | _ => .error .assertionError
      else get_graphql_type env fuel (fatType field) st
    match inner with
    | .error e => .error e
    | .ok (graphql_type, st1) =>
      if _is_optional field then .ok (graphql_type, st1)
      else .ok (.nonNull graphql_type, st1)

/-- Source `from_list`: assert the child reference exists, convert it, wrap in
`GraphQLList`. -/
def from_list (env : Env) :
    Nat → FIELD_ARGUMENT_TYPE → ConvState → Except ConvError (GType × ConvState)
  | 0, _, _ => .error .outOfFuel
  | fuel+1, list_, st =>
    match fatChild list_ with
    | Option.none => .error .assertionError
    | some child =>
      match get_graphql_type_field env fuel child st with
      | .error e => .error e
      | .ok (of_type, st1) => .ok (.list of_type, st1)

/-- Source `get_graphql_type`: capability probing in source order —
`_type_definition` (input / interface / object), `_enum_definition`,
`is_scalar` — and a `TypeError` for anything else. -/
def get_graphql_type (env : Env) :
    Nat → TypeRef → ConvState → Except ConvError (GType × ConvState)
  | 0, _, _ => .error .outOfFuel
  | fuel+1, type_, st =>
    match (attrs env type_).type_definition with
    | some td =>
      if td.is_input then from_input_object_type env fuel type_ st
      else if td.is_interface then from_interface env fuel td st
      else from_object_type env fuel type_ st
    | Option.none =>
      match (attrs env type_).enum_definition with
      | some ed => from_enum ed st
      | Option.none =>
        match (attrs env type_).scalar with
        | some marker => from_scalar marker st
        | Option.none => .error (.typeErrorUnexpectedType type_)

/-- Source `from_argument`: translate the default (`Undefined` when the value
is the `undefined` sentinel, the value itself otherwise), convert the
argument type, build the `GraphQLArgument`. -/
def from_argument (env : Env) :
    Nat → ArgumentDefinition → ConvState → Except ConvError (GraphQLArgument × ConvState)
  | 0, _, _ => .error .outOfFuel
  | fuel+1, argument, st =>
    let default_value : GqlDefault :=
      if argument.default_value = PyDefault.undef then .Undefined
      else .py argument.default_value
    match get_graphql_type_field env fuel (.inr argument) st with
    | .error e => .error e
    | .ok (argument_type, st1) =>
      .ok (⟨argument_type, default_value, argument.description⟩, st1)

/-- Source `from_input_field`: translate the default (`Undefined` when the
value is the `undefined` or `UNSET` sentinel, the value itself
otherwise), convert the field type, return the `GraphQLInputField`
data (type, default, description). The entry bump on `inputFieldCalls`
instruments materializer invocations. -/
def from_input_field (env : Env) :
    Nat → FieldDefinition → ConvState →
    Except ConvError ((GType × GqlDefault × Option String) × ConvState)
  | 0, _, _ => .error .outOfFuel
  | fuel+1, field, st =>
    let st' := { st with inputFieldCalls := st.inputFieldCalls + 1 }
    let default_value : GqlDefault :=
      if field.default_value = PyDefault.undef ∨ field.default_value = PyDefault.unset
      then .Undefined else .py field.default_value
    match get_graphql_type_field env fuel (.inl field) st' with
    | .error e => .error e
    | .ok (field_type, st1) => .ok ((field_type, default_value, field.description), st1)

/-- The dict comprehension of `from_input_object_type`:
`{field.name: self.from_input_field(field) for field in fields}`,
evaluated eagerly and in order. -/
def buildInputFields (env : Env) :
    Nat → List FieldDefinition → ConvState →
    Except ConvError (List (Option String × GType × GqlDefault × Option String) × ConvState)
  | _, [], st => .ok ([], st)
  | 0, _ :: _, _ => .error .outOfFuel
  | fuel+1, field :: rest, st =>
    match from_input_field env fuel field st with
    | .error e => .error e
    | .ok (gf, st1) =>
      match buildInputFields env fuel rest st1 with
      | .error e => .error e
      | .ok (gfs, st2) => .ok ((field.name, gf) :: gfs, st2)

/-- Source `from_input_object_type`: `TypeError` unless the value has a
`_type_definition` of input kind; then the `GraphQLInputObjectType` is
constructed with an eagerly evaluated field map. Note: unlike every
other named-type builder in the module, no type-map cache check or
insertion is performed. -/
def from_input_object_type (env : Env) :
    Nat → TypeRef → ConvState → Except ConvError (GType × ConvState)
  | 0, _, _ => .error .outOfFuel
  | fuel+1, object_type, st =>
    match (attrs env object_type).type_definition with
    | Option.none => .error (.typeErrorWrongTypePassed object_type)
    | some type_definition =>
      if type_definition.is_input then
        match buildInputFields env fuel type_definition.fields st with
        | .error e => .error e
        | .ok (fields, st1) =>
          let g := GType.inputObject st1.nextId type_definition.name fields
            type_definition.description
          .ok (g, bumpId st1)
      else .error (.typeErrorNotInputType object_type)

/-- Source `from_interface`: cache check by name (with the isinstance assert on
a hit); on a miss, the parent interfaces are built eagerly, the
`GraphQLInterfaceType` is constructed with a deferred field map (the
captured definition), and the result is inserted into the cache. -/
def from_interface (env : Env) :
    Nat → TypeDefinition → ConvState → Except ConvError (GType × ConvState)
  | 0, _, _ => .error .outOfFuel
  | fuel+1, interface, st =>
    match lookupTypeMap st.type_map interface.name with
    | some entry =>
      if entry.implementation.isInterfaceImpl then .ok (entry.implementation, st)
      else .error .assertionError
    | Option.none =>
      match buildInterfaceList env fuel interface.interfaces st with
      | .error e => .error e
      | .ok (ifaces, st1) =>
        let g := GType.interface st1.nextId interface.name interface ifaces
          interface.description
        .ok (g, pushEntry (bumpId st1) interface.name ⟨.typeDef interface, g⟩)

/-- The expression `list(map(self.from_interface, interfaces))`, evaluated eagerly at
construction time. -/
def buildInterfaceList (env : Env) :
    Nat → List TypeDefinition → ConvState → Except ConvError (List GType × ConvState)
  | _, [], st => .ok ([], st)
  | 0, _ :: _, _ => .error .outOfFuel
  | fuel+1, td :: rest, st =>
    match from_interface env fuel td st with
    | .error e => .error e
    | .ok (g, st1) =>
      match buildInterfaceList env fuel rest st1 with
      | .error e => .error e
      | .ok (gs, st2) => .ok (g :: gs, st2)

/-- Source `from_object_type`: `TypeError` unless the value has a
`_type_definition`; cache check by name (with the isinstance assert on
a hit); on a miss, interfaces are built eagerly, the `GraphQLObjectType`
is constructed with a deferred field map (the captured definition), and
the result is inserted into the cache before any deferred field work
can run. -/
def from_object_type (env : Env) :
    Nat → TypeRef → ConvState → Except ConvError (GType × ConvState)
  | 0, _, _ => .error .outOfFuel
  | fuel+1, object_type, st =>
    match (attrs env object_type).type_definition with
    | Option.none => .error (.typeErrorWrongTypePassed object_type)
    | some type_definition =>
      match lookupTypeMap st.type_map type_definition.name with
      | some entry =>
        if entry.implementation.isObjectImpl then .ok (entry.implementation, st)
        else .error .assertionError
      | Option.none =>
        match buildInterfaceList env fuel type_definition.interfaces st with
        | .error e => .error e
        | .ok (ifaces, st1) =>
          let g := GType.object st1.nextId type_definition.name type_definition ifaces
            type_definition.origin type_definition.description
          .ok (g, pushEntry (bumpId st1) type_definition.name ⟨.typeDef type_definition, g⟩)

/-- Source `from_union`: cache check by name (with the isinstance assert on a
hit); on a miss, every member is resolved through `get_graphql_type`
and asserted to be a `GraphQLObjectType`; the `GraphQLUnionType`
carries `resolve_type = union.get_type_resolver(self.type_map)`
(modelled by the resolver factory tag) and is inserted into the
cache. -/
def from_union (env : Env) :
    Nat → StrawberryUnion → ConvState → Except ConvError (GType × ConvState)
  | 0, _, _ => .error .outOfFuel
  | fuel+1, union, st =>
    match lookupTypeMap st.type_map union.name with
    | some entry =>
      if entry.implementation.isUnionImpl then .ok (entry.implementation, st)
      else .error .assertionError
    | Option.none =>
      match resolveUnionMembers env fuel union.types st with
      | .error e => .error e
      | .ok (graphql_types, st1) =>
        let g := GType.union st1.nextId union.name graphql_types union.description
          union.resolverFactoryId
        .ok (g, pushEntry (bumpId st1) union.name ⟨.unionDef union, g⟩)

/-- The member loop of `from_union`: resolve each member reference via
`get_graphql_type` and assert it is a `GraphQLObjectType`. -/
def resolveUnionMembers (env : Env) :
    Nat → List String → ConvState → Except ConvError (List GType × ConvState)
  | _, [], st => .ok ([], st)
  | 0, _ :: _, _ => .error .outOfFuel
  | fuel+1, n :: rest, st =>
    match get_graphql_type env fuel (.cls n) st with
    | .error e => .error e
    | .ok (graphql_type, st1) =>
      if graphql_type.isObjectImpl then
        match resolveUnionMembers env fuel rest st1 with
        | .error e => .error e
        | .ok (gs, st2) => .ok (graphql_type :: gs, st2)
      else .error .assertionError

end

/-- The argument loop of `from_field` / `from_directive`:
`assert argument.name is not None` then key `from_argument(argument)`
by the name. -/
def buildFieldArguments (env : Env) :
    Nat → List ArgumentDefinition → ConvState →
    Except ConvError (List (String × GraphQLArgument) × ConvState)
  | _, [], st => .ok ([], st)
  | 0, _ :: _, _ => .error .outOfFuel
  | fuel+1, argument :: rest, st =>
    match argument.name with
    | Option.none => .error .assertionError
    | some name =>
      match from_argument env fuel argument st with
      | .error e => .error e
      | .ok (ga, st1) =>
        match buildFieldArguments env fuel rest st1 with
        | .error e => .error e
        | .ok (gas, st2) => .ok ((name, ga) :: gas, st2)

/-- Source `from_field`: convert the field type, wire the resolver (on a
subscription field, `subscribe` becomes the wrapped resolver and
`resolve` becomes `lambda event, *_, **__: event`), build the argument
map, construct the `GraphQLField`. The entry bump on `fieldCalls`
instruments materializer invocations. -/
def from_field (env : Env) :
    Nat → FieldDefinition → ConvState → Except ConvError (GraphQLField × ConvState)
  | 0, _, _ => .error .outOfFuel
  | fuel+1, field, st =>
    let st' := { st with fieldCalls := st.fieldCalls + 1 }
    match get_graphql_type_field env fuel (.inl field) st' with
    | .error e => .error e
    | .ok (field_type, st1) =>
      match buildFieldArguments env fuel field.arguments st1 with
      | .error e => .error e
      | .ok (graphql_arguments, st2) =>
        .ok (⟨field_type, graphql_arguments,
              (if field.is_subscription then Resolver.eventIdentity
               else from_resolver field),
              (if field.is_subscription then some (from_resolver field)
               else Option.none),
              field.description, field.deprecation_reason⟩, st2)

/-- The body of the deferred fields closure of `from_object_type`:
`{field.name: self.from_field(field) for field in type_definition.fields}`,
run against the converter state at force time. -/
def forceObjectFields (env : Env) :
    Nat → List FieldDefinition → ConvState →
    Except ConvError (List (Option String × GraphQLField) × ConvState)
  | _, [], st => .ok ([], st)
  | 0, _ :: _, _ => .error .outOfFuel
  | fuel+1, field :: rest, st =>
    match from_field env fuel field st with
    | .error e => .error e
    | .ok (gf, st1) =>
      match forceObjectFields env fuel rest st1 with
      | .error e => .error e
      | .ok (gfs, st2) => .ok ((field.name, gf) :: gfs, st2)

/-- The body of the deferred `get_graphql_fields` closure of
`from_interface`: like the object closure but with
`assert field.name is not None`. -/
def forceInterfaceFields (env : Env) :
    Nat → List FieldDefinition → ConvState →
    Except ConvError (List (String × GraphQLField) × ConvState)
  | _, [], st => .ok ([], st)
  | 0, _ :: _, _ => .error .outOfFuel
  | fuel+1, field :: rest, st =>
    match field.name with
    | Option.none => .error .assertionError
    | some name =>
      match from_field env fuel field st with
      | .error e => .error e
      | .ok (gf, st1) =>
        match forceInterfaceFields env fuel rest st1 with
        | .error e => .error e
        | .ok (gfs, st2) => .ok ((name, gf) :: gfs, st2)

/-
Concrete fixtures used by witnesses and counterexamples.
-/

/-- A class recognized by the scalar registry as the built-in integer. -/
def intScalarClass : ClassInfo := ⟨Option.none, Option.none, some .int⟩

/-- An environment with one scalar class `S`. -/
def envS : Env := [("S", intScalarClass)]

/-- An optional scalar-typed subscription field. -/
def subField : FieldDefinition :=
  .mk (some "x") (.cls "S") false true false Option.none [] .undef Option.none
    Option.none true 42

/-- An optional scalar-typed plain (non-subscription) field. -/
def plainField : FieldDefinition :=
  .mk (some "x") (.cls "S") false true false Option.none [] .undef Option.none
    Option.none false 42

/-- An optional scalar-typed argument whose default is explicitly null. -/
def nullDefaultArg : ArgumentDefinition :=
  .mk (some "x") (.cls "S") false true false Option.none .none Option.none

/-- An optional scalar-typed input field whose default is the `UNSET`
sentinel. -/
def unsetDefaultField : FieldDefinition :=
  .mk (some "x") (.cls "S") false true false Option.none [] .unset Option.none
    Option.none false 0

/-- An optional scalar-typed child reference of a list. -/
def childOpt : ArgumentDefinition :=
  .mk Option.none (.cls "S") false true false Option.none .undef Option.none

/-- A required list argument whose child is `childOpt`. -/
def listReqArg : ArgumentDefinition :=
  .mk (some "xs") .nothing true false false (some childOpt) .undef Option.none

/-- A required (non-optional) scalar-typed argument. -/
def reqArg : ArgumentDefinition :=
  .mk (some "x") (.cls "S") false false false Option.none .undef Option.none

/-
C7 and C10: resolver wiring of the field materializer.
-/

/-- C7: for every field definition marked as subscription that the field
materializer converts successfully, the produced field has as its subscribe
function exactly the wrapped original resolver, and its resolve
function is the identity pass-through: calling it returns every event
value unchanged. -/
theorem C7_subscription_split (env : Env) (fuel : Nat) (f : FieldDefinition)
    (st st' : ConvState) (gf : GraphQLField)
    (hsub : f.is_subscription = true)
    (h : from_field env fuel f st = .ok (gf, st')) :
    gf.subscribe = some (from_resolver f) ∧ gf.resolve = Resolver.eventIdentity ∧
    ∀ e rest, gf.resolve.call e rest = some e := by
  cases fuel with
  | zero => simp [from_field] at h
  | succ n =>
    simp only [from_field] at h
    split at h
    · exact absurd h (by simp)
    · split at h
      · exact absurd h (by simp)
      · rw [Except.ok.injEq, Prod.mk.injEq] at h
        obtain ⟨hgf, -⟩ := h
        subst hgf
        refine ⟨by simp [hsub], by simp [hsub], ?_⟩
        intro e rest
        simp [hsub, Resolver.call]

/-- Witness for C7 at a concrete subscription field over a scalar
environment. -/
theorem C7_subscription_split_witness :
    subField.is_subscription = true ∧
    (∃ gf st', from_field envS 5 subField initState = .ok (gf, st') ∧
      gf.subscribe = some (from_resolver subField) ∧
      gf.resolve = Resolver.eventIdentity ∧
      ∀ e rest, gf.resolve.call e rest = some e) := by
  refine ⟨rfl, ⟨⟨.scalarBuiltin "Int", [], .eventIdentity, some (.external 42),
    Option.none, Option.none⟩, { initState with fieldCalls := 1 }, rfl, ?_⟩⟩
  exact C7_subscription_split envS 5 subField initState _ _ rfl rfl

/-- C10: for every field definition not marked as subscription that the
field materializer converts successfully, the produced field has no
subscribe function and its resolve function is exactly the wrapped
original resolver. -/
theorem C10_plain_field_resolver (env : Env) (fuel : Nat) (f : FieldDefinition)
    (st st' : ConvState) (gf : GraphQLField)
    (hsub : f.is_subscription = false)
    (h : from_field env fuel f st = .ok (gf, st')) :
    gf.subscribe = Option.none ∧ gf.resolve = from_resolver f := by
  cases fuel with
  | zero => simp [from_field] at h
  | succ n =>
    simp only [from_field] at h
    split at h
    · exact absurd h (by simp)
    · split at h
      · exact absurd h (by simp)
      · rw [Except.ok.injEq, Prod.mk.injEq] at h
        obtain ⟨hgf, -⟩ := h
        subst hgf
        exact ⟨by simp [hsub], by simp [hsub]⟩

/-- Witness for C10 at a concrete non-subscription field over a scalar
environment. -/
theorem C10_plain_field_resolver_witness :
    plainField.is_subscription = false ∧
    (∃ gf st', from_field envS 5 plainField initState = .ok (gf, st') ∧
      gf.subscribe = Option.none ∧ gf.resolve = from_resolver plainField) := by
  refine ⟨rfl, ⟨⟨.scalarBuiltin "Int", [], .external 42, Option.none,
    Option.none, Option.none⟩, { initState with fieldCalls := 1 }, rfl, ?_⟩⟩
  exact C10_plain_field_resolver envS 5 plainField initState _ _ rfl rfl

/-
C6: tri-state default value translation.
-/

/-- C6: the default value of an argument or input field survives
conversion: the not-provided sentinels map to the engine value `Undefined`
(absent) representation, explicit null maps to null, and a value maps
to itself; the three target representations are pairwise distinct, so
not-provided is never collapsed into null. -/
theorem C6_default_tristate (env : Env) (fuel : Nat) (a : ArgumentDefinition)
    (f : FieldDefinition) (st sta stf : ConvState) (ga : GraphQLArgument)
    (inf : GType × GqlDefault × Option String)
    (ha : from_argument env fuel a st = .ok (ga, sta))
    (hf : from_input_field env fuel f st = .ok (inf, stf)) :
    ((a.default_value = .undef → ga.default_value = .Undefined) ∧
     (a.default_value = .none → ga.default_value = .py .none) ∧
     (∀ v, a.default_value = .val v → ga.default_value = .py (.val v))) ∧
    ((f.default_value = .undef → inf.2.1 = .Undefined) ∧
     (f.default_value = .unset → inf.2.1 = .Undefined) ∧
     (f.default_value = .none → inf.2.1 = .py .none) ∧
     (∀ v, f.default_value = .val v → inf.2.1 = .py (.val v))) ∧
    (GqlDefault.Undefined ≠ .py .none ∧ (∀ v, GqlDefault.Undefined ≠ .py (.val v)) ∧
     (∀ v, GqlDefault.py .none ≠ .py (.val v))) := by
  have hga : ga.default_value =
      (if a.default_value = PyDefault.undef then .Undefined else .py a.default_value) := by
    cases fuel with
    | zero => simp [from_argument] at ha
    | succ n =>
      simp only [from_argument] at ha
      split at ha
      · exact absurd ha (by simp)
      · rw [Except.ok.injEq, Prod.mk.injEq] at ha
        obtain ⟨hga, -⟩ := ha
        subst hga
        rfl
  have hinf : inf.2.1 =
      (if f.default_value = PyDefault.undef ∨ f.default_value = PyDefault.unset
       then .Undefined else .py f.default_value) := by
    cases fuel with
    | zero => simp [from_input_field] at hf
    | succ n =>
      simp only [from_input_field] at hf
      split at hf
      · exact absurd hf (by simp)
      · rw [Except.ok.injEq, Prod.mk.injEq] at hf
        obtain ⟨hinf, -⟩ := hf
        subst hinf
        rfl
  refine ⟨⟨?_, ?_, ?_⟩, ⟨?_, ?_, ?_, ?_⟩, by simp, by simp, by simp⟩ <;>
    first
    | (intro hd; simp [hga, hd])
    | (intro v hd; simp [hga, hd])
    | (intro hd; simp [hinf, hd])
    | (intro v hd; simp [hinf, hd])

/-- Witness for C6 at a concrete null-defaulted argument and a concrete
`UNSET`-defaulted input field. -/
theorem C6_default_tristate_witness :
    from_argument envS 5 nullDefaultArg initState =
      .ok (⟨.scalarBuiltin "Int", .py .none, Option.none⟩, initState) ∧
    from_input_field envS 5 unsetDefaultField initState =
      .ok ((.scalarBuiltin "Int", .Undefined, Option.none),
        { initState with inputFieldCalls := 1 }) ∧
    (GqlDefault.py .none = .py PyDefault.none ∧ GqlDefault.Undefined = .Undefined) := by
  refine ⟨rfl, rfl, ?_, ?_⟩
  · exact ((C6_default_tristate envS 5 nullDefaultArg unsetDefaultField initState
      initState _ _ _ rfl rfl).1.2.1 rfl).symm ▸ rfl
  · rfl

/-
C2: modifier composition.
-/

/-- C2: modifier composition is fixed for every field or argument
reference: the innermost named, union or list type is resolved first
(named references through `get_graphql_type`, union references through
`from_union`; a list resolves its child the same way), the result is
wrapped in `GraphQLList` when the reference is a list, and finally in
`GraphQLNonNull` unless the reference is optional. The if-form of each
conclusion covers the full required/optional times
child-required/child-optional matrix; the first pair of conjuncts
handles named innermost types (as a list child and plain), the second
pair union innermost types (as a list child and plain). -/
theorem C2_modifier_composition (env : Env) (fuel : Nat) (st st₁ : ConvState) :
    (∀ (t : TypeRef) (gT : GType),
      get_graphql_type env fuel t st = .ok (gT, st₁) →
      (∀ (fat c : FIELD_ARGUMENT_TYPE),
        _is_list fat = true → fatChild fat = some c →
        _is_list c = false → _is_union c = false → fatType c = t →
        get_graphql_type_field env (fuel+3) fat st =
          .ok ((if _is_optional fat
                then GType.list (if _is_optional c then gT else .nonNull gT)
                else .nonNull (GType.list (if _is_optional c then gT else .nonNull gT))),
               st₁)) ∧
      (∀ fat, _is_list fat = false → _is_union fat = false → fatType fat = t →
        get_graphql_type_field env (fuel+1) fat st =
          .ok ((if _is_optional fat then gT else .nonNull gT), st₁))) ∧
    (∀ (u : StrawberryUnion) (gU : GType),
      from_union env fuel u st = .ok (gU, st₁) →
      (∀ (fat c : FIELD_ARGUMENT_TYPE),
        _is_list fat = true → fatChild fat = some c →
        _is_list c = false → _is_union c = true → fatType c = .union u →
        get_graphql_type_field env (fuel+3) fat st =
          .ok ((if _is_optional fat
                then GType.list (if _is_optional c then gU else .nonNull gU)
                else .nonNull (GType.list (if _is_optional c then gU else .nonNull gU))),
               st₁)) ∧
      (∀ fat, _is_list fat = false → _is_union fat = true → fatType fat = .union u →
        get_graphql_type_field env (fuel+1) fat st =
          .ok ((if _is_optional fat then gU else .nonNull gU), st₁))) := by
  constructor
  · intro t gT hinner
    constructor
    · intro fat c h1 h3 h4 h5 h6
      cases hoc : _is_optional c <;> cases hof : _is_optional fat <;>
        simp [get_graphql_type_field, from_list, h1, h3, h4, h5, h6, hinner,
          hoc, hof]
    · intro fat h1 h2 h3
      cases hof : _is_optional fat <;>
        simp [get_graphql_type_field, h1, h2, h3, hinner, hof]
  · intro u gU hu
    constructor
    · intro fat c h1 h3 h4 h5 h6
      cases hoc : _is_optional c <;> cases hof : _is_optional fat <;>
        simp [get_graphql_type_field, from_list, h1, h3, h4, h5, h6, hu,
          hoc, hof]
    · intro fat h1 h2 h3
      cases hof : _is_optional fat <;>
        simp [get_graphql_type_field, h1, h2, h3, hu, hof]

/-
Error characterization: a `TypeError` carrying a reference is only ever
raised at a probe that found the corresponding attribute defect, so a
reference that has the attribute can never be the payload of that
error.
-/

/-- What must hold of an error value for it to be producible: the
`TypeError` raise sites each certify an attribute defect of their
payload; assertion errors and fuel exhaustion carry no payload. -/
def EBad (env : Env) : ConvError → Prop
  | .typeErrorUnexpectedType x =>
    (attrs env x).type_definition = Option.none ∧
    (attrs env x).enum_definition = Option.none ∧
    (attrs env x).scalar = Option.none
  | .typeErrorWrongTypePassed x => (attrs env x).type_definition = Option.none
  | .typeErrorNotInputType x =>
    ∃ td, (attrs env x).type_definition = some td ∧ td.is_input = false
  | _ => True

/-- A result is admissible when its error, if any, is producible. -/
def EOK {α : Type} (env : Env) : Except ConvError α → Prop
  | .ok _ => True
  | .error e => EBad env e

/-- Propagated errors transfer between result types. -/
theorem eok_err {α β : Type} {env : Env} {e : ConvError}
    (h : EOK env (Except.error e : Except ConvError α)) :
    EOK env (Except.error e : Except ConvError β) := h

/-- Source `from_enum` only fails with assertion errors, so its results are
admissible. -/
theorem eok_from_enum (env : Env) (ed : EnumDefinition) (st : ConvState) :
    EOK env (from_enum ed st) := by
  rcases hN : ed.name with _ | name
  · simp [from_enum, hN, EOK, EBad]
  · rcases hL : lookupTypeMap st.type_map name with _ | entry
    · simp [from_enum, hN, hL, EOK]
    · by_cases hE : entry.implementation.isEnumImpl = true <;>
        simp [from_enum, hN, hL, hE, EOK, EBad]

/-- Source `from_scalar` never fails, so its results are admissible. -/
theorem eok_from_scalar (env : Env) (m : ScalarMarker) (st : ConvState) :
    EOK env (from_scalar m st) := by
  cases m <;> simp [from_scalar, get_scalar_type, EOK]
  case custom name =>
    rcases hL : lookupTypeMap st.type_map name with _ | entry <;> simp [hL, EOK]

/-- Every converter function only produces admissible results: the
three `TypeError`s each certify the attribute defect of their payload
reference. -/
theorem errInvAll (env : Env) : ∀ fuel : Nat,
    (∀ x st, EOK env (get_graphql_type_field env fuel x st)) ∧
    (∀ x st, EOK env (from_list env fuel x st)) ∧
    (∀ t st, EOK env (get_graphql_type env fuel t st)) ∧
    (∀ a st, EOK env (from_argument env fuel a st)) ∧
    (∀ f st, EOK env (from_input_field env fuel f st)) ∧
    (∀ fs st, EOK env (buildInputFields env fuel fs st)) ∧
    (∀ t st, EOK env (from_input_object_type env fuel t st)) ∧
    (∀ td st, EOK env (from_interface env fuel td st)) ∧
    (∀ tds st, EOK env (buildInterfaceList env fuel tds st)) ∧
    (∀ t st, EOK env (from_object_type env fuel t st)) ∧
    (∀ u st, EOK env (from_union env fuel u st)) ∧
    (∀ ns st, EOK env (resolveUnionMembers env fuel ns st)) := by
  intro fuel
  induction fuel with
  | zero =>
    refine ⟨?_, ?_, ?_, ?_, ?_, ?_, ?_, ?_, ?_, ?_, ?_, ?_⟩ <;> intro a st <;>
      (try cases a) <;>
      simp [get_graphql_type_field, from_list, get_graphql_type, from_argument,
        from_input_field, buildInputFields, from_input_object_type, from_interface,
        buildInterfaceList, from_object_type, from_union, resolveUnionMembers,
        EOK, EBad]
  | succ n ih =>
    obtain ⟨ihF, ihL, ihT, ihA, ihIF, ihBIF, ihIOT, ihI, ihBIL, ihO, ihU, ihM⟩ := ih
    refine ⟨?_, ?_, ?_, ?_, ?_, ?_, ?_, ?_, ?_, ?_, ?_, ?_⟩
    · -- get_graphql_type_field
      intro x st
      by_cases hl : _is_list x = true
      · rcases hF : from_list env n x st with e | ⟨g, st1⟩
        · have hh := ihL x st; rw [hF] at hh
          simp [get_graphql_type_field, hl, hF]
          exact hh
        · by_cases ho : _is_optional x = true <;>
            simp [get_graphql_type_field, hl, hF, ho, EOK]
      · by_cases hu : _is_union x = true
        · rcases hT : fatType x with _ | nm | u
          · simp [get_graphql_type_field, hl, hu, hT, EOK, EBad]
          · simp [get_graphql_type_field, hl, hu, hT, EOK, EBad]
          · rcases hF : from_union env n u st with e | ⟨g, st1⟩
            · have hh := ihU u st; rw [hF] at hh
              simp [get_graphql_type_field, hl, hu, hT, hF]
              exact hh
            · by_cases ho : _is_optional x = true <;>
                simp [get_graphql_type_field, hl, hu, hT, hF, ho, EOK]
        · rcases hF : get_graphql_type env n (fatType x) st with e | ⟨g, st1⟩
          · have hh := ihT (fatType x) st; rw [hF] at hh
            simp [get_graphql_type_field, hl, hu, hF]
            exact hh
          · by_cases ho : _is_optional x = true <;>
              simp [get_graphql_type_field, hl, hu, hF, ho, EOK]
    · -- from_list
      intro x st
      rcases hC : fatChild x with _ | c
      · simp [from_list, hC, EOK, EBad]
      · rcases hF : get_graphql_type_field env n c st with e | ⟨g, st1⟩
        · have hh := ihF c st; rw [hF] at hh
          simp [from_list, hC, hF]
          exact hh
        · simp [from_list, hC, hF, EOK]
    · -- get_graphql_type
      intro t st
      rcases hA : (attrs env t).type_definition with _ | td
      · rcases hE : (attrs env t).enum_definition with _ | ed
        · rcases hS : (attrs env t).scalar with _ | m
          · simp [get_graphql_type, hA, hE, hS, EOK, EBad]
          · simp only [get_graphql_type, hA, hE, hS]
            exact eok_from_scalar env m st
        · simp only [get_graphql_type, hA, hE]
          exact eok_from_enum env ed st
      · by_cases hin : td.is_input = true
        · simp only [get_graphql_type, hA, if_pos hin]
          exact ihIOT t st
        · by_cases hif : td.is_interface = true
          · simp only [get_graphql_type, hA, if_neg hin, if_pos hif]
            exact ihI td st
          · simp only [get_graphql_type, hA, if_neg hin, if_neg hif]
            exact ihO t st
    · -- from_argument
      intro a st
      rcases hF : get_graphql_type_field env n (.inr a) st with e | ⟨g, st1⟩
      · have hh := ihF (.inr a) st; rw [hF] at hh
        simp [from_argument, hF]
        exact hh
      · simp [from_argument, hF, EOK]
    · -- from_input_field
      intro f st
      rcases hF : get_graphql_type_field env n (.inl f)
          { st with inputFieldCalls := st.inputFieldCalls + 1 } with e | ⟨g, st1⟩
      · have hh := ihF (.inl f) { st with inputFieldCalls := st.inputFieldCalls + 1 }
        rw [hF] at hh
        simp [from_input_field, hF]
        exact hh
      · simp [from_input_field, hF, EOK]
    · -- buildInputFields
      intro fs st
      cases fs with
      | nil => simp [buildInputFields, EOK]
      | cons f rest =>
        rcases hF : from_input_field env n f st with e | ⟨gf, st1⟩
        · have hh := ihIF f st; rw [hF] at hh
          simp [buildInputFields, hF]
          exact hh
        · rcases hR : buildInputFields env n rest st1 with e | ⟨gfs, st2⟩
          · have hh := ihBIF rest st1; rw [hR] at hh
            simp [buildInputFields, hF, hR]
            exact hh
          · simp [buildInputFields, hF, hR, EOK]
    · -- from_input_object_type
      intro t st
      rcases hA : (attrs env t).type_definition with _ | td
      · simp [from_input_object_type, hA, EOK, EBad]
      · by_cases hin : td.is_input = true
        · rcases hB : buildInputFields env n td.fields st with e | ⟨fields, st1⟩
          · have hh := ihBIF td.fields st; rw [hB] at hh
            simp [from_input_object_type, hA, hin, hB]
            exact hh
          · simp [from_input_object_type, hA, hin, hB, EOK]
        · simp only [from_input_object_type, hA, if_neg hin]
          simp [EOK, EBad]
          exact ⟨td, hA, by simpa using hin⟩
    · -- from_interface
      intro td st
      rcases hL : lookupTypeMap st.type_map td.name with _ | entry
      · rcases hB : buildInterfaceList env n td.interfaces st with e | ⟨ifaces, st1⟩
        · have hh := ihBIL td.interfaces st; rw [hB] at hh
          simp [from_interface, hL, hB]
          exact hh
        · simp [from_interface, hL, hB, EOK]
      · by_cases hI : entry.implementation.isInterfaceImpl = true <;>
          simp [from_interface, hL, hI, EOK, EBad]
    · -- buildInterfaceList
      intro tds st
      cases tds with
      | nil => simp [buildInterfaceList, EOK]
      | cons td rest =>
        rcases hF : from_interface env n td st with e | ⟨g, st1⟩
        · have hh := ihI td st; rw [hF] at hh
          simp [buildInterfaceList, hF]
          exact hh
        · rcases hR : buildInterfaceList env n rest st1 with e | ⟨gs, st2⟩
          · have hh := ihBIL rest st1; rw [hR] at hh
            simp [buildInterfaceList, hF, hR]
            exact hh
          · simp [buildInterfaceList, hF, hR, EOK]
    · -- from_object_type
      intro t st
      rcases hA : (attrs env t).type_definition with _ | td
      · simp [from_object_type, hA, EOK, EBad]
      · rcases hL : lookupTypeMap st.type_map td.name with _ | entry
        · rcases hB : buildInterfaceList env n td.interfaces st with e | ⟨ifaces, st1⟩
          · have hh := ihBIL td.interfaces st; rw [hB] at hh
            simp [from_object_type, hA, hL, hB]
            exact hh
          · simp [from_object_type, hA, hL, hB, EOK]
        · by_cases hO : entry.implementation.isObjectImpl = true <;>
            simp [from_object_type, hA, hL, hO, EOK, EBad]
    · -- from_union
      intro u st
      rcases hL : lookupTypeMap st.type_map u.name with _ | entry
      · rcases hM2 : resolveUnionMembers env n u.types st with e | ⟨gs, st1⟩
        · have hh := ihM u.types st; rw [hM2] at hh
          simp [from_union, hL, hM2]
          exact hh
        · simp [from_union, hL, hM2, EOK]
      · by_cases hU : entry.implementation.isUnionImpl = true <;>
          simp [from_union, hL, hU, EOK, EBad]
    · -- resolveUnionMembers
      intro ns st
      cases ns with
      | nil => simp [resolveUnionMembers, EOK]
      | cons nm rest =>
        rcases hF : get_graphql_type env n (.cls nm) st with e | ⟨g, st1⟩
        · have hh := ihT (.cls nm) st; rw [hF] at hh
          simp [resolveUnionMembers, hF]
          exact hh
        · by_cases hO : g.isObjectImpl = true
          · rcases hR : resolveUnionMembers env n rest st1 with e | ⟨gs, st2⟩
            · have hh := ihM rest st1; rw [hR] at hh
              simp [resolveUnionMembers, hF, hO, hR]
              exact hh
            · simp [resolveUnionMembers, hF, hO, hR, EOK]
          · simp [resolveUnionMembers, hF, hO, EOK, EBad]

/-
C8: the unknown-variant branch of the dispatcher.
-/

/-- C8: a reference with none of the probed capabilities (no type
definition, no enum definition, not a scalar) makes `get_graphql_type`
fail with its unexpected-type `TypeError` (the UnrecognizedTypeKind
branch of the spec); for a reference with any of the known
capabilities, that error with this reference as payload is never
produced. -/
theorem C8_unrecognized_type_kind (env : Env) :
    (∀ (fuel : Nat) (t : TypeRef) (st : ConvState),
      (attrs env t).type_definition = Option.none →
      (attrs env t).enum_definition = Option.none →
      (attrs env t).scalar = Option.none →
      get_graphql_type env (fuel+1) t st = .error (.typeErrorUnexpectedType t)) ∧
    (∀ (fuel : Nat) (t : TypeRef) (st : ConvState),
      ((attrs env t).type_definition.isSome ∨ (attrs env t).enum_definition.isSome ∨
        (attrs env t).scalar.isSome) →
      get_graphql_type env fuel t st ≠ .error (.typeErrorUnexpectedType t)) := by
  constructor
  · intro fuel t st h1 h2 h3
    simp [get_graphql_type, h1, h2, h3]
  · intro fuel t st hknown hcontra
    have hinv := (errInvAll env fuel).2.2.1 t st
    rw [hcontra] at hinv
    obtain ⟨hA, hE, hS⟩ := hinv
    rcases hknown with h | h | h
    · rw [hA] at h
      simp at h
    · rw [hE] at h
      simp at h
    · rw [hS] at h
      simp at h

/-- Witness for C8: a class unknown to the environment fails with the
unexpected-type error, and the known scalar class never produces it. -/
theorem C8_unrecognized_type_kind_witness :
    get_graphql_type envS 3 (.cls "X") initState =
      .error (.typeErrorUnexpectedType (.cls "X")) ∧
    get_graphql_type envS 5 (.cls "S") initState ≠
      .error (.typeErrorUnexpectedType (.cls "S")) := by
  constructor
  · exact (C8_unrecognized_type_kind envS).1 2 (.cls "X") initState rfl rfl rfl
  · exact (C8_unrecognized_type_kind envS).2 5 (.cls "S") initState
      (Or.inr (Or.inr rfl))

/-
C9: kind checks of the builders.
-/

/-- An input-kind type definition named `I` with no fields. -/
def inputTd : TypeDefinition := .mk "I" Option.none true false "I" [] []

/-- An environment with the single input class `I`. -/
def envI : Env := [("I", ⟨some inputTd, Option.none, Option.none⟩)]

/-- A plain object-kind type definition named `O` with no fields. -/
def objTd : TypeDefinition := .mk "O" Option.none false false "O" [] []

/-- An environment with the single object class `O`. -/
def envO : Env := [("O", ⟨some objTd, Option.none, Option.none⟩)]

/-- Counterexample to C9: the object builder invoked with a definition
of the wrong kind (an input-kind definition) does not fail at all — it
builds a `GraphQLObjectType` from it. -/
theorem C9_counterexample_object_builder_accepts_input :
    inputTd.is_input = true ∧
    from_object_type envI 5 (.cls "I") initState =
      .ok (.object 0 "I" inputTd [] "I" Option.none,
        ⟨[("I", ⟨.typeDef inputTd, .object 0 "I" inputTd [] "I" Option.none⟩)],
          1, 0, 0⟩) :=
  ⟨rfl, rfl⟩

/-- C9 amended: the kind checks that do exist. A value without a
`_type_definition` fails both the input and the object builder with the
wrong-type-passed `TypeError`; a non-input definition fails the input
builder with the not-an-input-type `TypeError`; and for an input-kind
definition the input builder never produces either error about that
reference. (The object and interface builders perform no
mismatched-kind check beyond the presence of a type definition.) -/
theorem C9_wrong_kind_for_builder (env : Env) :
    (∀ (fuel : Nat) (t : TypeRef) (st : ConvState),
      (attrs env t).type_definition = Option.none →
      from_input_object_type env (fuel+1) t st =
        .error (.typeErrorWrongTypePassed t) ∧
      from_object_type env (fuel+1) t st = .error (.typeErrorWrongTypePassed t)) ∧
    (∀ (fuel : Nat) (t : TypeRef) (td : TypeDefinition) (st : ConvState),
      (attrs env t).type_definition = some td → td.is_input = false →
      from_input_object_type env (fuel+1) t st =
        .error (.typeErrorNotInputType t)) ∧
    (∀ (fuel : Nat) (t : TypeRef) (td : TypeDefinition) (st : ConvState),
      (attrs env t).type_definition = some td → td.is_input = true →
      from_input_object_type env fuel t st ≠
        .error (.typeErrorWrongTypePassed t) ∧
      from_input_object_type env fuel t st ≠
        .error (.typeErrorNotInputType t)) := by
  refine ⟨?_, ?_, ?_⟩
  · intro fuel t st hA
    exact ⟨by simp [from_input_object_type, hA], by simp [from_object_type, hA]⟩
  · intro fuel t td st hA hin
    simp [from_input_object_type, hA, hin]
  · intro fuel t td st hA hin
    constructor
    · intro hcontra
      have hinv := (errInvAll env fuel).2.2.2.2.2.2.1 t st
      rw [hcontra] at hinv
      rw [hinv] at hA
      simp at hA
    · intro hcontra
      have hinv := (errInvAll env fuel).2.2.2.2.2.2.1 t st
      rw [hcontra] at hinv
      obtain ⟨td', hA', hin'⟩ := hinv
      rw [hA'] at hA
      rw [Option.some.injEq] at hA
      rw [hA] at hin'
      rw [hin'] at hin
      simp at hin

/-- Witness for C9 at concrete inputs: an unknown class fails both
builders, the object class `O` fails the input builder, and the input
class `I` converts without either wrong-kind error. -/
theorem C9_wrong_kind_for_builder_witness :
    (from_input_object_type envO 3 (.cls "X") initState =
        .error (.typeErrorWrongTypePassed (.cls "X")) ∧
      from_object_type envO 3 (.cls "X") initState =
        .error (.typeErrorWrongTypePassed (.cls "X"))) ∧
    from_input_object_type envO 3 (.cls "O") initState =
      .error (.typeErrorNotInputType (.cls "O")) ∧
    (from_input_object_type envI 5 (.cls "I") initState ≠
        .error (.typeErrorWrongTypePassed (.cls "I")) ∧
      from_input_object_type envI 5 (.cls "I") initState ≠
        .error (.typeErrorNotInputType (.cls "I"))) := by
  refine ⟨?_, ?_, ?_⟩
  · exact (C9_wrong_kind_for_builder envO).1 2 (.cls "X") initState rfl
  · exact (C9_wrong_kind_for_builder envO).2.1 2 (.cls "O") objTd initState rfl rfl
  · exact (C9_wrong_kind_for_builder envI).2.2 5 (.cls "I") inputTd initState rfl rfl

/-
C1 counterexample: input object types are not cached.
-/

/-- Counterexample to C1: converting the same input type definition
twice constructs two distinct `GraphQLInputObjectType` instances (no
cache check or insertion happens in `from_input_object_type`), so
idempotence with identity equality fails for the input kind. -/
theorem C1_counterexample_input_not_cached :
    from_input_object_type envI 5 (.cls "I") initState =
      .ok (.inputObject 0 "I" [] Option.none, ⟨[], 1, 0, 0⟩) ∧
    from_input_object_type envI 5 (.cls "I") ⟨[], 1, 0, 0⟩ =
      .ok (.inputObject 1 "I" [] Option.none, ⟨[], 2, 0, 0⟩) ∧
    GType.inputObject 0 "I" [] Option.none ≠ .inputObject 1 "I" [] Option.none := by
  refine ⟨rfl, rfl, ?_⟩
  intro h
  injection h with h1
  exact absurd h1 (by decide)

/-
Materializer-invocation accounting: construction never calls the output
field materializer, and the input field materializer is called at least
once per input field it processes.
-/

/-- An interface-kind type definition named `IF` with no fields. -/
def ifaceTd : TypeDefinition := .mk "IF" Option.none false true "IF" [] []

/-- An input-kind type definition named `J` with one scalar field. -/
def inputTd2 : TypeDefinition := .mk "J" Option.none true false "J" [unsetDefaultField] []

/-- An environment with the input class `J` and the scalar class `S`. -/
def envJ : Env := [("J", ⟨some inputTd2, Option.none, Option.none⟩), ("S", intScalarClass)]

/-- Counter accounting of a converter result: on success, the output
field materializer was never invoked and the input field materializer
was invoked at least `k` times. -/
def CSum {α : Type} (st : ConvState) (k : Nat) :
    Except ConvError (α × ConvState) → Prop
  | .ok (_, st') =>
    st'.fieldCalls = st.fieldCalls ∧
    st.inputFieldCalls + k ≤ st'.inputFieldCalls
  | .error _ => True

/-- Source `from_enum` touches only the type map and the id counter. -/
theorem csum_from_enum (ed : EnumDefinition) (st : ConvState) :
    CSum st 0 (from_enum ed st) := by
  rcases hN : ed.name with _ | name
  · simp [from_enum, hN, CSum]
  · rcases hL : lookupTypeMap st.type_map name with _ | entry
    · simp [from_enum, hN, hL, CSum, pushEntry, bumpId]
    · by_cases hE : entry.implementation.isEnumImpl = true <;>
        simp [from_enum, hN, hL, hE, CSum]

/-- Source `from_scalar` touches only the type map and the id counter. -/
theorem csum_from_scalar (m : ScalarMarker) (st : ConvState) :
    CSum st 0 (from_scalar m st) := by
  cases m <;> simp [from_scalar, get_scalar_type, CSum]
  case custom name =>
    rcases hL : lookupTypeMap st.type_map name with _ | entry <;>
      simp [hL, CSum, pushEntry, bumpId]

/-- During the construction pass, no converter function invokes the
output field materializer (`fieldCalls` is preserved), and the input
field materializer is invoked at least once per input field processed
(`inputFieldCalls` grows accordingly). -/
theorem cntInvAll (env : Env) : ∀ fuel : Nat,
    (∀ x st, CSum st 0 (get_graphql_type_field env fuel x st)) ∧
    (∀ x st, CSum st 0 (from_list env fuel x st)) ∧
    (∀ t st, CSum st 0 (get_graphql_type env fuel t st)) ∧
    (∀ a st, CSum st 0 (from_argument env fuel a st)) ∧
    (∀ f st, CSum st 1 (from_input_field env fuel f st)) ∧
    (∀ fs st, CSum st fs.length (buildInputFields env fuel fs st)) ∧
    (∀ t st, CSum st 0 (from_input_object_type env fuel t st)) ∧
    (∀ td st, CSum st 0 (from_interface env fuel td st)) ∧
    (∀ tds st, CSum st 0 (buildInterfaceList env fuel tds st)) ∧
    (∀ t st, CSum st 0 (from_object_type env fuel t st)) ∧
    (∀ u st, CSum st 0 (from_union env fuel u st)) ∧
    (∀ ns st, CSum st 0 (resolveUnionMembers env fuel ns st)) := by
  intro fuel
  induction fuel with
  | zero =>
    refine ⟨?_, ?_, ?_, ?_, ?_, ?_, ?_, ?_, ?_, ?_, ?_, ?_⟩ <;> intro a st <;>
      (try cases a) <;>
      simp [get_graphql_type_field, from_list, get_graphql_type, from_argument,
        from_input_field, buildInputFields, from_input_object_type, from_interface,
        buildInterfaceList, from_object_type, from_union, resolveUnionMembers, CSum]
  | succ n ih =>
    obtain ⟨ihF, ihL, ihT, ihA, ihIF, ihBIF, ihIOT, ihI, ihBIL, ihO, ihU, ihM⟩ := ih
    refine ⟨?_, ?_, ?_, ?_, ?_, ?_, ?_, ?_, ?_, ?_, ?_, ?_⟩
    · -- get_graphql_type_field
      intro x st
      by_cases hl : _is_list x = true
      · rcases hF : from_list env n x st with e | ⟨g, st1⟩
        · simp [get_graphql_type_field, hl, hF, CSum]
        · have h1 := ihL x st; rw [hF] at h1; simp [CSum] at h1
          by_cases ho : _is_optional x = true <;>
            simp [get_graphql_type_field, hl, hF, ho, CSum] <;> omega
      · by_cases hu : _is_union x = true
        · rcases hT : fatType x with _ | nm | u
          · simp [get_graphql_type_field, hl, hu, hT, CSum]
          · simp [get_graphql_type_field, hl, hu, hT, CSum]
          · rcases hF : from_union env n u st with e | ⟨g, st1⟩
            · simp [get_graphql_type_field, hl, hu, hT, hF, CSum]
            · have h1 := ihU u st; rw [hF] at h1; simp [CSum] at h1
              by_cases ho : _is_optional x = true <;>
                simp [get_graphql_type_field, hl, hu, hT, hF, ho, CSum] <;> omega
        · rcases hF : get_graphql_type env n (fatType x) st with e | ⟨g, st1⟩
          · simp [get_graphql_type_field, hl, hu, hF, CSum]
          · have h1 := ihT (fatType x) st; rw [hF] at h1; simp [CSum] at h1
            by_cases ho : _is_optional x = true <;>
              simp [get_graphql_type_field, hl, hu, hF, ho, CSum] <;> omega
    · -- from_list
      intro x st
      rcases hC : fatChild x with _ | c
      · simp [from_list, hC, CSum]
      · rcases hF : get_graphql_type_field env n c st with e | ⟨g, st1⟩
        · simp [from_list, hC, hF, CSum]
        · have h1 := ihF c st; rw [hF] at h1; simp [CSum] at h1
          simp [from_list, hC, hF, CSum]
          omega
    · -- get_graphql_type
      intro t st
      rcases hA : (attrs env t).type_definition with _ | td
      · rcases hE : (attrs env t).enum_definition with _ | ed
        · rcases hS : (attrs env t).scalar with _ | m
          · simp [get_graphql_type, hA, hE, hS, CSum]
          · simp only [get_graphql_type, hA, hE, hS]
            exact csum_from_scalar m st
        · simp only [get_graphql_type, hA, hE]
          exact csum_from_enum ed st
      · by_cases hin : td.is_input = true
        · simp only [get_graphql_type, hA, if_pos hin]
          exact ihIOT t st
        · by_cases hif : td.is_interface = true
          · simp only [get_graphql_type, hA, if_neg hin, if_pos hif]
            exact ihI td st
          · simp only [get_graphql_type, hA, if_neg hin, if_neg hif]
            exact ihO t st
    · -- from_argument
      intro a st
      rcases hF : get_graphql_type_field env n (.inr a) st with e | ⟨g, st1⟩
      · simp [from_argument, hF, CSum]
      · have h1 := ihF (.inr a) st; rw [hF] at h1; simp [CSum] at h1
        simp [from_argument, hF, CSum]
        omega
    · -- from_input_field
      intro f st
      rcases hF : get_graphql_type_field env n (.inl f)
          { st with inputFieldCalls := st.inputFieldCalls + 1 } with e | ⟨g, st1⟩
      · simp [from_input_field, hF, CSum]
      · have h1 := ihF (.inl f) { st with inputFieldCalls := st.inputFieldCalls + 1 }
        rw [hF] at h1; simp [CSum] at h1
        simp [from_input_field, hF, CSum]
        omega
    · -- buildInputFields
      intro fs st
      cases fs with
      | nil => simp [buildInputFields, CSum]
      | cons f rest =>
        rcases hF : from_input_field env n f st with e | ⟨gf, st1⟩
        · simp [buildInputFields, hF, CSum]
        · rcases hR : buildInputFields env n rest st1 with e | ⟨gfs, st2⟩
          · simp [buildInputFields, hF, hR, CSum]
          · have h1 := ihIF f st; rw [hF] at h1; simp [CSum] at h1
            have h2 := ihBIF rest st1; rw [hR] at h2; simp [CSum] at h2
            simp [buildInputFields, hF, hR, CSum]
            omega
    · -- from_input_object_type
      intro t st
      rcases hA : (attrs env t).type_definition with _ | td
      · simp [from_input_object_type, hA, CSum]
      · by_cases hin : td.is_input = true
        · rcases hB : buildInputFields env n td.fields st with e | ⟨fields, st1⟩
          · simp [from_input_object_type, hA, hin, hB, CSum]
          · have h1 := ihBIF td.fields st; rw [hB] at h1; simp [CSum] at h1
            simp [from_input_object_type, hA, hin, hB, CSum, bumpId]
            omega
        · simp [from_input_object_type, hA, if_neg hin, CSum]
    · -- from_interface
      intro td st
      rcases hL : lookupTypeMap st.type_map td.name with _ | entry
      · rcases hB : buildInterfaceList env n td.interfaces st with e | ⟨ifaces, st1⟩
        · simp [from_interface, hL, hB, CSum]
        · have h1 := ihBIL td.interfaces st; rw [hB] at h1; simp [CSum] at h1
          simp [from_interface, hL, hB, CSum, pushEntry, bumpId]
          omega
      · by_cases hI : entry.implementation.isInterfaceImpl = true <;>
          simp [from_interface, hL, hI, CSum]
    · -- buildInterfaceList
      intro tds st
      cases tds with
      | nil => simp [buildInterfaceList, CSum]
      | cons td rest =>
        rcases hF : from_interface env n td st with e | ⟨g, st1⟩
        · simp [buildInterfaceList, hF, CSum]
        · rcases hR : buildInterfaceList env n rest st1 with e | ⟨gs, st2⟩
          · simp [buildInterfaceList, hF, hR, CSum]
          · have h1 := ihI td st; rw [hF] at h1; simp [CSum] at h1
            have h2 := ihBIL rest st1; rw [hR] at h2; simp [CSum] at h2
            simp [buildInterfaceList, hF, hR, CSum]
            omega
    · -- from_object_type
      intro t st
      rcases hA : (attrs env t).type_definition with _ | td
      · simp [from_object_type, hA, CSum]
      · rcases hL : lookupTypeMap st.type_map td.name with _ | entry
        · rcases hB : buildInterfaceList env n td.interfaces st with e | ⟨ifaces, st1⟩
          · simp [from_object_type, hA, hL, hB, CSum]
          · have h1 := ihBIL td.interfaces st; rw [hB] at h1; simp [CSum] at h1
            simp [from_object_type, hA, hL, hB, CSum, pushEntry, bumpId]
            omega
        · by_cases hO : entry.implementation.isObjectImpl = true <;>
            simp [from_object_type, hA, hL, hO, CSum]
    · -- from_union
      intro u st
      rcases hL : lookupTypeMap st.type_map u.name with _ | entry
      · rcases hM2 : resolveUnionMembers env n u.types st with e | ⟨gs, st1⟩
        · simp [from_union, hL, hM2, CSum]
        · have h1 := ihM u.types st; rw [hM2] at h1; simp [CSum] at h1
          simp [from_union, hL, hM2, CSum, pushEntry, bumpId]
          omega
      · by_cases hU : entry.implementation.isUnionImpl = true <;>
          simp [from_union, hL, hU, CSum]
    · -- resolveUnionMembers
      intro ns st
      cases ns with
      | nil => simp [resolveUnionMembers, CSum]
      | cons nm rest =>
        rcases hF : get_graphql_type env n (.cls nm) st with e | ⟨g, st1⟩
        · simp [resolveUnionMembers, hF, CSum]
        · by_cases hO : g.isObjectImpl = true
          · rcases hR : resolveUnionMembers env n rest st1 with e | ⟨gs, st2⟩
            · simp [resolveUnionMembers, hF, hO, hR, CSum]
            · have h1 := ihT (.cls nm) st; rw [hF] at h1; simp [CSum] at h1
              have h2 := ihM rest st1; rw [hR] at h2; simp [CSum] at h2
              simp [resolveUnionMembers, hF, hO, hR, CSum]
              omega
          · simp [resolveUnionMembers, hF, hO, CSum]

/-- The argument loop preserves the output-materializer counter and
never decreases the input-materializer counter. -/
theorem buildFieldArguments_counters (env : Env) :
    ∀ (args : List ArgumentDefinition) (fuel : Nat) (st : ConvState) res st',
      buildFieldArguments env fuel args st = .ok (res, st') →
      st'.fieldCalls = st.fieldCalls ∧ st.inputFieldCalls ≤ st'.inputFieldCalls := by
  intro args
  induction args with
  | nil =>
    intro fuel st res st' h
    simp only [buildFieldArguments] at h
    rw [Except.ok.injEq, Prod.mk.injEq] at h
    obtain ⟨-, hst⟩ := h
    subst hst
    simp
  | cons a rest ih =>
    intro fuel st res st' h
    cases fuel with
    | zero => simp [buildFieldArguments] at h
    | succ n =>
      simp only [buildFieldArguments] at h
      rcases hN : a.name with _ | nm <;> simp only [hN] at h
      · exact absurd h (by simp)
      · rcases hA : from_argument env n a st with e | ⟨ga, st1⟩ <;>
          simp only [hA] at h
        · exact absurd h (by simp)
        · rcases hR : buildFieldArguments env n rest st1 with e | ⟨gas, st2⟩ <;>
            simp only [hR] at h
          · exact absurd h (by simp)
          · rw [Except.ok.injEq, Prod.mk.injEq] at h
            obtain ⟨-, hst⟩ := h
            subst hst
            have h1 := (cntInvAll env n).2.2.2.1 a st
            rw [hA] at h1; simp [CSum] at h1
            have h2 := ih n st1 gas st2 hR
            omega

/-- A successful output-field materialization bumps the field counter
by exactly one and never decreases the input counter. -/
theorem from_field_counters (env : Env) (fuel : Nat) (f : FieldDefinition)
    (st : ConvState) (gf : GraphQLField) (st' : ConvState)
    (h : from_field env fuel f st = .ok (gf, st')) :
    st'.fieldCalls = st.fieldCalls + 1 ∧
    st.inputFieldCalls ≤ st'.inputFieldCalls := by
  cases fuel with
  | zero => simp [from_field] at h
  | succ n =>
    simp only [from_field] at h
    rcases hF : get_graphql_type_field env n (.inl f)
        { st with fieldCalls := st.fieldCalls + 1 } with e | ⟨ft, st1⟩ <;>
      simp only [hF] at h
    · exact absurd h (by simp)
    · rcases hA : buildFieldArguments env n f.arguments st1 with e | ⟨gas, st2⟩ <;>
        simp only [hA] at h
      · exact absurd h (by simp)
      · rw [Except.ok.injEq, Prod.mk.injEq] at h
        obtain ⟨-, hst⟩ := h
        subst hst
        have h1 := (cntInvAll env n).1 (.inl f) { st with fieldCalls := st.fieldCalls + 1 }
        rw [hF] at h1; simp [CSum] at h1
        have h2 := buildFieldArguments_counters env f.arguments n st1 gas st2 hA
        omega

/-- C3: field population is deferred for object and interface types —
constructing them never invokes the output field materializer — while
forcing a deferred field map invokes it exactly once per field; input
object construction, by contrast, eagerly invokes the input field
materializer at least once per field of the definition. -/
theorem C3_deferred_fields (env : Env) :
    (∀ (fuel : Nat) (t : TypeRef) (st : ConvState) (g : GType) (st' : ConvState),
      from_object_type env fuel t st = .ok (g, st') →
      st'.fieldCalls = st.fieldCalls) ∧
    (∀ (fuel : Nat) (td : TypeDefinition) (st : ConvState) (g : GType) st',
      from_interface env fuel td st = .ok (g, st') →
      st'.fieldCalls = st.fieldCalls) ∧
    (∀ (fuel : Nat) (fs : List FieldDefinition) (st : ConvState) res st',
      forceObjectFields env fuel fs st = .ok (res, st') →
      st'.fieldCalls = st.fieldCalls + fs.length) ∧
    (∀ (fuel : Nat) (t : TypeRef) (td : TypeDefinition) (st : ConvState) (g : GType) st',
      (attrs env t).type_definition = some td →
      from_input_object_type env fuel t st = .ok (g, st') →
      st.inputFieldCalls + td.fields.length ≤ st'.inputFieldCalls) := by
  refine ⟨?_, ?_, ?_, ?_⟩
  · intro fuel t st g st' h
    have h1 := (cntInvAll env fuel).2.2.2.2.2.2.2.2.2.1 t st
    rw [h] at h1; simp [CSum] at h1
    exact h1.1
  · intro fuel td st g st' h
    have h1 := (cntInvAll env fuel).2.2.2.2.2.2.2.1 td st
    rw [h] at h1; simp [CSum] at h1
    exact h1.1
  · intro fuel fs
    induction fs generalizing fuel with
    | nil =>
      intro st res st' h
      simp only [forceObjectFields] at h
      rw [Except.ok.injEq, Prod.mk.injEq] at h
      obtain ⟨-, hst⟩ := h
      subst hst
      simp
    | cons f rest ih =>
      intro st res st' h
      cases fuel with
      | zero => simp [forceObjectFields] at h
      | succ n =>
        simp only [forceObjectFields] at h
        rcases hF : from_field env n f st with e | ⟨gf, st1⟩ <;>
          simp only [hF] at h
        · exact absurd h (by simp)
        · rcases hR : forceObjectFields env n rest st1 with e | ⟨gfs, st2⟩ <;>
            simp only [hR] at h
          · exact absurd h (by simp)
          · rw [Except.ok.injEq, Prod.mk.injEq] at h
            obtain ⟨-, hst⟩ := h
            subst hst
            have h1 := from_field_counters env n f st gf st1 hF
            have h2 := ih n st1 gfs st2 hR
            simp [List.length_cons]
            omega
  · intro fuel t td st g st' hA h
    cases fuel with
    | zero => simp [from_input_object_type] at h
    | succ n =>
      simp only [from_input_object_type, hA] at h
      by_cases hin : td.is_input = true
      · rw [if_pos hin] at h
        rcases hB : buildInputFields env n td.fields st with e | ⟨fields, st1⟩ <;>
          simp only [hB] at h
        · exact absurd h (by simp)
        · rw [Except.ok.injEq, Prod.mk.injEq] at h
          obtain ⟨-, hst⟩ := h
          subst hst
          have h1 := (cntInvAll env n).2.2.2.2.2.1 td.fields st
          rw [hB] at h1; simp [CSum] at h1
          simp [bumpId]
          omega
      · rw [if_neg hin] at h
        simp at h

/-- Witness for C3 at concrete inputs: building the object `O` and an
interface leaves the field counter unchanged, forcing one deferred
field bumps it by one, and building the one-field input type `J` bumps
the input counter by one. -/
theorem C3_deferred_fields_witness :
    ((⟨[("O", ⟨.typeDef objTd, .object 0 "O" objTd [] "O" Option.none⟩)],
        1, 0, 0⟩ : ConvState).fieldCalls = initState.fieldCalls) ∧
    ((⟨[("IF", ⟨.typeDef ifaceTd, .interface 0 "IF" ifaceTd [] Option.none⟩)],
        1, 0, 0⟩ : ConvState).fieldCalls = initState.fieldCalls) ∧
    ((⟨[], 0, 1, 0⟩ : ConvState).fieldCalls =
      initState.fieldCalls + [plainField].length) ∧
    (initState.inputFieldCalls + inputTd2.fields.length ≤
      (⟨[], 1, 0, 1⟩ : ConvState).inputFieldCalls) := by
  refine ⟨?_, ?_, ?_, ?_⟩
  · exact (C3_deferred_fields envO).1 5 (.cls "O") initState _ _ rfl
  · exact (C3_deferred_fields envO).2.1 5 ifaceTd initState _ _ rfl
  · exact (C3_deferred_fields envS).2.2.1 5 [plainField] initState _ _ rfl
  · exact (C3_deferred_fields envJ).2.2.2 5 (.cls "J") inputTd2 initState _ _ rfl rfl

/-
C1: idempotence of named-type conversion for the cached kinds.
-/

/-- A second enum conversion from the post-state returns the identical
cached implementation and leaves the state unchanged. -/
theorem from_enum_idem (ed : EnumDefinition) (st : ConvState) (g : GType)
    (st₁ : ConvState) (h : from_enum ed st = .ok (g, st₁)) :
    from_enum ed st₁ = .ok (g, st₁) := by
  rcases hN : ed.name with _ | name <;> simp only [from_enum, hN] at h ⊢
  · exact absurd h (by simp)
  · rcases hL : lookupTypeMap st.type_map name with _ | entry <;> simp only [hL] at h
    · rw [Except.ok.injEq, Prod.mk.injEq] at h
      obtain ⟨hg, hst⟩ := h
      subst hg
      subst hst
      simp [pushEntry, bumpId, lookupTypeMap, GType.isEnumImpl]
    · by_cases hE : entry.implementation.isEnumImpl = true
      · rw [if_pos hE] at h
        rw [Except.ok.injEq, Prod.mk.injEq] at h
        obtain ⟨hg, hst⟩ := h
        subst hg
        subst hst
        simp [hL, hE]
      · rw [if_neg hE] at h
        exact absurd h (by simp)

/-- A second scalar conversion from the post-state returns the identical
implementation (the built-in singleton, or the cached custom scalar)
and leaves the state unchanged. -/
theorem from_scalar_idem (m : ScalarMarker) (st : ConvState) (g : GType)
    (st₁ : ConvState) (h : from_scalar m st = .ok (g, st₁)) :
    from_scalar m st₁ = .ok (g, st₁) := by
  cases m <;> simp only [from_scalar, get_scalar_type] at h ⊢ <;>
    try (rw [Except.ok.injEq, Prod.mk.injEq] at h; obtain ⟨hg, hst⟩ := h;
         subst hg; subst hst; rfl)
  case custom name =>
    rcases hL : lookupTypeMap st.type_map name with _ | entry <;> simp only [hL] at h
    · rw [Except.ok.injEq, Prod.mk.injEq] at h
      obtain ⟨hg, hst⟩ := h
      subst hg
      subst hst
      simp [pushEntry, bumpId, lookupTypeMap]
    · rw [Except.ok.injEq, Prod.mk.injEq] at h
      obtain ⟨hg, hst⟩ := h
      subst hg
      subst hst
      simp [hL]

/-- A second interface conversion from the post-state returns the
identical cached implementation and leaves the state unchanged. -/
theorem from_interface_idem (env : Env) (fuel : Nat) (td : TypeDefinition)
    (st : ConvState) (g : GType) (st₁ : ConvState)
    (h : from_interface env fuel td st = .ok (g, st₁)) :
    from_interface env fuel td st₁ = .ok (g, st₁) := by
  cases fuel with
  | zero => simp [from_interface] at h
  | succ n =>
    simp only [from_interface] at h ⊢
    rcases hL : lookupTypeMap st.type_map td.name with _ | entry <;>
      simp only [hL] at h
    · rcases hB : buildInterfaceList env n td.interfaces st with e | ⟨ifaces, st1⟩ <;>
        simp only [hB] at h
      · exact absurd h (by simp)
      · rw [Except.ok.injEq, Prod.mk.injEq] at h
        obtain ⟨hg, hst⟩ := h
        subst hg
        subst hst
        simp [pushEntry, bumpId, lookupTypeMap, GType.isInterfaceImpl]
    · by_cases hI : entry.implementation.isInterfaceImpl = true
      · rw [if_pos hI] at h
        rw [Except.ok.injEq, Prod.mk.injEq] at h
        obtain ⟨hg, hst⟩ := h
        subst hg
        subst hst
        simp [hL, hI]
      · rw [if_neg hI] at h
        exact absurd h (by simp)

/-- A second object conversion from the post-state returns the identical
cached implementation and leaves the state unchanged. -/
theorem from_object_type_idem (env : Env) (fuel : Nat) (t : TypeRef)
    (st : ConvState) (g : GType) (st₁ : ConvState)
    (h : from_object_type env fuel t st = .ok (g, st₁)) :
    from_object_type env fuel t st₁ = .ok (g, st₁) := by
  cases fuel with
  | zero => simp [from_object_type] at h
  | succ n =>
    simp only [from_object_type] at h ⊢
    rcases hA : (attrs env t).type_definition with _ | td <;> simp only [hA] at h ⊢
    · exact absurd h (by simp)
    · rcases hL : lookupTypeMap st.type_map td.name with _ | entry <;>
        simp only [hL] at h
      · rcases hB : buildInterfaceList env n td.interfaces st with e | ⟨ifaces, st1⟩ <;>
          simp only [hB] at h
        · exact absurd h (by simp)
        · rw [Except.ok.injEq, Prod.mk.injEq] at h
          obtain ⟨hg, hst⟩ := h
          subst hg
          subst hst
          simp [pushEntry, bumpId, lookupTypeMap, GType.isObjectImpl]
      · by_cases hO : entry.implementation.isObjectImpl = true
        · rw [if_pos hO] at h
          rw [Except.ok.injEq, Prod.mk.injEq] at h
          obtain ⟨hg, hst⟩ := h
          subst hg
          subst hst
          simp [hL, hO]
        · rw [if_neg hO] at h
          exact absurd h (by simp)

/-- A second union conversion from the post-state returns the identical
cached implementation and leaves the state unchanged. -/
theorem from_union_idem (env : Env) (fuel : Nat) (u : StrawberryUnion)
    (st : ConvState) (g : GType) (st₁ : ConvState)
    (h : from_union env fuel u st = .ok (g, st₁)) :
    from_union env fuel u st₁ = .ok (g, st₁) := by
  cases fuel with
  | zero => simp [from_union] at h
  | succ n =>
    simp only [from_union] at h ⊢
    rcases hL : lookupTypeMap st.type_map u.name with _ | entry <;>
      simp only [hL] at h
    · rcases hM : resolveUnionMembers env n u.types st with e | ⟨gs, st1⟩ <;>
        simp only [hM] at h
      · exact absurd h (by simp)
      · rw [Except.ok.injEq, Prod.mk.injEq] at h
        obtain ⟨hg, hst⟩ := h
        subst hg
        subst hst
        simp [pushEntry, bumpId, lookupTypeMap, GType.isUnionImpl]
    · by_cases hU : entry.implementation.isUnionImpl = true
      · rw [if_pos hU] at h
        rw [Except.ok.injEq, Prod.mk.injEq] at h
        obtain ⟨hg, hst⟩ := h
        subst hg
        subst hst
        simp [hL, hU]
      · rw [if_neg hU] at h
        exact absurd h (by simp)

/-- C1 amended: conversion of a named type is idempotent with identity
equality for the object, interface, enum and scalar kinds (first
conjunct, excluding the input dispatch path) and for the union kind
(second conjunct): a repeated conversion from the post-state returns
the very same implementation instance and leaves the converter
unchanged, because the name is found in the cache. Input object types
are excluded: `from_input_object_type` performs no caching (see the
counterexample). -/
theorem C1_idempotent_conversion :
    (∀ (env : Env) (fuel : Nat) (t : TypeRef) (st : ConvState) (g : GType) st₁,
      get_graphql_type env fuel t st = .ok (g, st₁) →
      (∀ td, (attrs env t).type_definition = some td → td.is_input = false) →
      get_graphql_type env fuel t st₁ = .ok (g, st₁)) ∧
    (∀ (env : Env) (fuel : Nat) (u : StrawberryUnion) (st : ConvState) (g : GType) st₁,
      from_union env fuel u st = .ok (g, st₁) →
      from_union env fuel u st₁ = .ok (g, st₁)) := by
  constructor
  · intro env fuel t st g st₁ h hkind
    cases fuel with
    | zero => simp [get_graphql_type] at h
    | succ n =>
      simp only [get_graphql_type] at h ⊢
      rcases hA : (attrs env t).type_definition with _ | td <;> simp only [hA] at h ⊢
      · rcases hE : (attrs env t).enum_definition with _ | ed <;> simp only [hE] at h ⊢
        · rcases hS : (attrs env t).scalar with _ | m <;> simp only [hS] at h ⊢
          · exact absurd h (by simp)
          · exact from_scalar_idem m st g st₁ h
        · exact from_enum_idem ed st g st₁ h
      · have hin := hkind td hA
        rw [if_neg (by simp [hin])] at h ⊢
        by_cases hif : td.is_interface = true
        · rw [if_pos hif] at h ⊢
          exact from_interface_idem env n td st g st₁ h
        · rw [if_neg hif] at h ⊢
          exact from_object_type_idem env n t st g st₁ h
  · intro env fuel u st g st₁ h
    exact from_union_idem env fuel u st g st₁ h

/-- A union of the single object class `O`. -/
def unionO : StrawberryUnion := ⟨"U", ["O"], Option.none, 7⟩

/-- Witness for C1 at concrete inputs: converting the object `O` twice
returns the identical instance and state, and likewise for a union over
`O`. -/
theorem C1_idempotent_conversion_witness :
    get_graphql_type envO 5 (.cls "O")
        ⟨[("O", ⟨.typeDef objTd, .object 0 "O" objTd [] "O" Option.none⟩)], 1, 0, 0⟩ =
      .ok (.object 0 "O" objTd [] "O" Option.none,
        ⟨[("O", ⟨.typeDef objTd, .object 0 "O" objTd [] "O" Option.none⟩)], 1, 0, 0⟩) ∧
    from_union envO 10 unionO
        ⟨[("U", ⟨.unionDef unionO,
            .union 1 "U" [.object 0 "O" objTd [] "O" Option.none] Option.none 7⟩),
          ("O", ⟨.typeDef objTd, .object 0 "O" objTd [] "O" Option.none⟩)], 2, 0, 0⟩ =
      .ok (.union 1 "U" [.object 0 "O" objTd [] "O" Option.none] Option.none 7,
        ⟨[("U", ⟨.unionDef unionO,
            .union 1 "U" [.object 0 "O" objTd [] "O" Option.none] Option.none 7⟩),
          ("O", ⟨.typeDef objTd, .object 0 "O" objTd [] "O" Option.none⟩)], 2, 0, 0⟩) := by
  constructor
  · exact C1_idempotent_conversion.1 envO 5 (.cls "O") initState _ _ rfl
      (fun td htd => by
        rw [show (attrs envO (.cls "O")).type_definition = some objTd from rfl,
          Option.some.injEq] at htd
        rw [← htd]
        rfl)
  · exact C1_idempotent_conversion.2 envO 10 unionO initState _ _ rfl

/-- A required union-typed argument referencing `unionO`. -/
def unionArg : ArgumentDefinition :=
  .mk (some "u") (.union unionO) false false true Option.none .undef Option.none

/-- An optional union-typed child reference of a list. -/
def childUnionOpt : ArgumentDefinition :=
  .mk Option.none (.union unionO) false true true Option.none .undef Option.none

/-- A required list argument whose child is `childUnionOpt`. -/
def listUnionArg : ArgumentDefinition :=
  .mk (some "us") .nothing true false false (some childUnionOpt) .undef Option.none

/-- Witness for C2 at concrete references of every innermost kind: a
required list of optional scalar composes to `NonNull(List(Int))`, a
required plain scalar to `NonNull(Int)`, a required list of optional
union to `NonNull(List(U))`, and a required plain union reference to
`NonNull(U)`. -/
theorem C2_modifier_composition_witness :
    get_graphql_type_field envS 8 (.inr listReqArg) initState =
      .ok (.nonNull (.list (.scalarBuiltin "Int")), initState) ∧
    get_graphql_type_field envS 6 (.inr reqArg) initState =
      .ok (.nonNull (.scalarBuiltin "Int"), initState) ∧
    get_graphql_type_field envO 12 (.inr listUnionArg) initState =
      .ok (.nonNull (.list
            (.union 1 "U" [.object 0 "O" objTd [] "O" Option.none] Option.none 7)),
        ⟨[("U", ⟨.unionDef unionO,
            .union 1 "U" [.object 0 "O" objTd [] "O" Option.none] Option.none 7⟩),
          ("O", ⟨.typeDef objTd, .object 0 "O" objTd [] "O" Option.none⟩)], 2, 0, 0⟩) ∧
    get_graphql_type_field envO 10 (.inr unionArg) initState =
      .ok (.nonNull
            (.union 1 "U" [.object 0 "O" objTd [] "O" Option.none] Option.none 7),
        ⟨[("U", ⟨.unionDef unionO,
            .union 1 "U" [.object 0 "O" objTd [] "O" Option.none] Option.none 7⟩),
          ("O", ⟨.typeDef objTd, .object 0 "O" objTd [] "O" Option.none⟩)], 2, 0, 0⟩) := by
  refine ⟨?_, ?_, ?_, ?_⟩
  · exact ((C2_modifier_composition envS 5 initState initState).1 (.cls "S")
      (.scalarBuiltin "Int") rfl).1 (.inr listReqArg) (.inr childOpt)
      rfl rfl rfl rfl rfl
  · exact ((C2_modifier_composition envS 5 initState initState).1 (.cls "S")
      (.scalarBuiltin "Int") rfl).2 (.inr reqArg) rfl rfl rfl
  · exact ((C2_modifier_composition envO 9 initState _).2 unionO
      (.union 1 "U" [.object 0 "O" objTd [] "O" Option.none] Option.none 7)
      rfl).1 (.inr listUnionArg) (.inr childUnionOpt) rfl rfl rfl rfl rfl
  · exact ((C2_modifier_composition envO 9 initState _).2 unionO
      (.union 1 "U" [.object 0 "O" objTd [] "O" Option.none] Option.none 7)
      rfl).2 (.inr unionArg) rfl rfl rfl

/-
C5: union building.
-/

/-- Every member type produced by the union member loop passed the
object-type assertion. -/
theorem resolveUnionMembers_allObj (env : Env) :
    ∀ (ns : List String) (fuel : Nat) (st : ConvState) ms st',
      resolveUnionMembers env fuel ns st = .ok (ms, st') →
      ∀ m ∈ ms, m.isObjectImpl = true := by
  intro ns
  induction ns with
  | nil =>
    intro fuel st ms st' h
    simp only [resolveUnionMembers] at h
    rw [Except.ok.injEq, Prod.mk.injEq] at h
    obtain ⟨hm, -⟩ := h
    subst hm
    simp
  | cons nm rest ih =>
    intro fuel st ms st' h
    cases fuel with
    | zero => simp [resolveUnionMembers] at h
    | succ n =>
      simp only [resolveUnionMembers] at h
      rcases hF : get_graphql_type env n (.cls nm) st with e | ⟨g, st1⟩ <;>
        simp only [hF] at h
      · exact absurd h (by simp)
      · by_cases hO : g.isObjectImpl = true
        · rw [if_pos hO] at h
          rcases hR : resolveUnionMembers env n rest st1 with e | ⟨gs, st2⟩ <;>
            simp only [hR] at h
          · exact absurd h (by simp)
          · rw [Except.ok.injEq, Prod.mk.injEq] at h
            obtain ⟨hm, -⟩ := h
            subst hm
            intro m hmem
            rcases List.mem_cons.mp hmem with hmg | hmem2
            · subst hmg
              exact hO
            · exact ih n st1 gs st2 hR m hmem2
        · rw [if_neg hO] at h
          exact absurd h (by simp)

/-- C5 amended: on a cache miss the union builder resolves every member
through the dispatcher; if it succeeds, every member implementation is
a `GraphQLObjectType` and the produced union carries the
type-resolution function obtained from the resolver factory applied to
the shared cache; if a member resolves to a non-object type, the build
fails fatally — but with an assertion failure, not with
`UnallowedReturnTypeForUnion`. -/
theorem C5_union_build :
    (∀ (env : Env) (fuel : Nat) (u : StrawberryUnion) (st : ConvState) (g : GType) st₁,
      lookupTypeMap st.type_map u.name = Option.none →
      from_union env fuel u st = .ok (g, st₁) →
      g.unionResolveFactory = some u.resolverFactoryId ∧
      ∃ ms, g.unionMembers = some ms ∧ ∀ m ∈ ms, m.isObjectImpl = true) ∧
    (∀ (env : Env) (fuel : Nat) (nm : String) (rest : List String)
        (u : StrawberryUnion) (st : ConvState) (g : GType) st₁,
      lookupTypeMap st.type_map u.name = Option.none →
      u.types = nm :: rest →
      get_graphql_type env fuel (.cls nm) st = .ok (g, st₁) →
      g.isObjectImpl = false →
      from_union env (fuel+2) u st = .error .assertionError) := by
  constructor
  · intro env fuel u st g st₁ hmiss h
    cases fuel with
    | zero => simp [from_union] at h
    | succ n =>
      simp only [from_union, hmiss] at h
      rcases hM : resolveUnionMembers env n u.types st with e | ⟨gs, st1⟩ <;>
        simp only [hM] at h
      · exact absurd h (by simp)
      · rw [Except.ok.injEq, Prod.mk.injEq] at h
        obtain ⟨hg, -⟩ := h
        subst hg
        exact ⟨rfl, gs, rfl, resolveUnionMembers_allObj env u.types n st gs st1 hM⟩
  · intro env fuel nm rest u st g st₁ hmiss hty hconv hnotobj
    simp only [from_union, hmiss, hty, resolveUnionMembers, hconv, hnotobj]
    simp [hnotobj]

/-- A class recognized as an enum named `E`. -/
def enumClassE : ClassInfo :=
  ⟨Option.none, some ⟨some "E", [⟨"A", 1⟩], Option.none⟩, Option.none⟩

/-- An environment with the single enum class `E`. -/
def envE : Env := [("E", enumClassE)]

/-- A union whose single member is the enum class `E`. -/
def unionE : StrawberryUnion := ⟨"UE", ["E"], Option.none, 9⟩

/-- Counterexample to C5: a union member resolving to a non-object type
(an enum) makes the build fail with a plain assertion failure, which is
not the `UnallowedReturnTypeForUnion` exception the claim names (that
exception is imported by the module but never raised in it). -/
theorem C5_counterexample_assertion_not_union_error :
    from_union envE 10 unionE initState = .error .assertionError ∧
    ConvError.assertionError ≠ ConvError.unallowedReturnTypeForUnion :=
  ⟨rfl, by decide⟩

/-- Witness for C5 at concrete inputs: the union over the object class
`O` builds with the factory tag and all-object members, and the union
over the enum class `E` fails the assertion. -/
theorem C5_union_build_witness :
    ((GType.union 1 "U" [.object 0 "O" objTd [] "O" Option.none] Option.none
        7).unionResolveFactory = some unionO.resolverFactoryId ∧
      ∃ ms, (GType.union 1 "U" [.object 0 "O" objTd [] "O" Option.none] Option.none
          7).unionMembers = some ms ∧ ∀ m ∈ ms, m.isObjectImpl = true) ∧
    from_union envE 5 unionE initState = .error .assertionError := by
  constructor
  · exact C5_union_build.1 envO 10 unionO initState _ _ rfl rfl
  · exact C5_union_build.2 envE 3 "E" [] unionE initState
      (.enum 0 "E" [("A", ⟨1⟩)] Option.none)
      ⟨[("E", ⟨.enumDef ⟨some "E", [⟨"A", 1⟩], Option.none⟩,
          .enum 0 "E" [("A", ⟨1⟩)] Option.none⟩)], 1, 0, 0⟩
      rfl rfl rfl rfl

/-
C4: cycle safety of mutually recursive object types.
-/

/-- An optional field referencing the class named `n`, with resolver
handle `r`. -/
def mutualField (n : String) (r : Nat) : FieldDefinition :=
  .mk (some "ref") (.cls n) false true false Option.none [] .undef Option.none
    Option.none false r

/-- An object type definition named `self` whose only field references
the class named `other`. -/
def mutualTd (self other : String) (r : Nat) : TypeDefinition :=
  .mk self Option.none false false self [mutualField other r] []

/-- The two-class environment where `nA` and `nB` reference each
other. -/
def mutualEnv (nA nB : String) (rA rB : Nat) : Env :=
  [(nA, ⟨some (mutualTd nA nB rA), Option.none, Option.none⟩),
   (nB, ⟨some (mutualTd nB nA rB), Option.none, Option.none⟩)]

/-- The concrete object type built for one side of the mutual pair. -/
def mutualImpl (id : Nat) (self other : String) (r : Nat) : GType :=
  .object id self (mutualTd self other r) [] self Option.none

/-- The type map after building first `nA`, then `nB`. -/
def mutualMap (nA nB : String) (rA rB : Nat) : List (String × ConcreteType) :=
  [(nB, ⟨.typeDef (mutualTd nB nA rB), mutualImpl 1 nB nA rB⟩),
   (nA, ⟨.typeDef (mutualTd nA nB rA), mutualImpl 0 nA nB rA⟩)]

/-- The converter state after building `nA`. -/
def mutualStA (nA nB : String) (rA _rB : Nat) : ConvState :=
  ⟨[(nA, ⟨.typeDef (mutualTd nA nB rA), mutualImpl 0 nA nB rA⟩)], 1, 0, 0⟩

/-- The converter state after building `nA` then `nB`. -/
def mutualStAB (nA nB : String) (rA rB : Nat) : ConvState :=
  ⟨mutualMap nA nB rA rB, 2, 0, 0⟩

/-- C4: for mutually referencing object definitions `nA` and `nB`,
building either succeeds (each is inserted into the cache immediately
after construction, with fields deferred), and afterwards forcing the
deferred field map of either returns a field whose type is exactly the
cached concrete implementation of the other. -/
theorem C4_cycle_safety (nA nB : String) (hne : nA ≠ nB) (rA rB : Nat) (fuel : Nat) :
    from_object_type (mutualEnv nA nB rA rB) (fuel+1) (.cls nA) initState =
      .ok (mutualImpl 0 nA nB rA, mutualStA nA nB rA rB) ∧
    from_object_type (mutualEnv nA nB rA rB) (fuel+1) (.cls nB) (mutualStA nA nB rA rB) =
      .ok (mutualImpl 1 nB nA rB, mutualStAB nA nB rA rB) ∧
    lookupTypeMap (mutualStAB nA nB rA rB).type_map nA =
      some ⟨.typeDef (mutualTd nA nB rA), mutualImpl 0 nA nB rA⟩ ∧
    lookupTypeMap (mutualStAB nA nB rA rB).type_map nB =
      some ⟨.typeDef (mutualTd nB nA rB), mutualImpl 1 nB nA rB⟩ ∧
    forceObjectFields (mutualEnv nA nB rA rB) (fuel+5) (mutualTd nA nB rA).fields
        (mutualStAB nA nB rA rB) =
      .ok ([(some "ref", ⟨mutualImpl 1 nB nA rB, [], .external rA, Option.none,
              Option.none, Option.none⟩)],
           ⟨mutualMap nA nB rA rB, 2, 1, 0⟩) ∧
    forceObjectFields (mutualEnv nA nB rA rB) (fuel+5) (mutualTd nB nA rB).fields
        (mutualStAB nA nB rA rB) =
      .ok ([(some "ref", ⟨mutualImpl 0 nA nB rA, [], .external rB, Option.none,
              Option.none, Option.none⟩)],
           ⟨mutualMap nA nB rA rB, 2, 1, 0⟩) := by
  have hne' : nB ≠ nA := Ne.symm hne
  refine ⟨?_, ?_, ?_, ?_, ?_, ?_⟩
  · simp [from_object_type, mutualEnv, attrs, lookupEnv, lookupTypeMap,
      buildInterfaceList, mutualTd, mutualImpl, mutualStA, initState, pushEntry,
      bumpId, TypeDefinition.name, TypeDefinition.interfaces, TypeDefinition.origin,
      TypeDefinition.description, hne, hne']
  · simp [from_object_type, mutualEnv, attrs, lookupEnv, lookupTypeMap,
      buildInterfaceList, mutualTd, mutualImpl, mutualStA, mutualStAB, mutualMap,
      pushEntry, bumpId, TypeDefinition.name, TypeDefinition.interfaces,
      TypeDefinition.origin, TypeDefinition.description, hne, hne']
  · simp [mutualStAB, mutualMap, lookupTypeMap, hne, hne']
  · simp [mutualStAB, mutualMap, lookupTypeMap, hne, hne']
  · simp [forceObjectFields, from_field, get_graphql_type_field, get_graphql_type,
      from_object_type, buildFieldArguments, mutualEnv, attrs, lookupEnv,
      lookupTypeMap, mutualTd, mutualField, mutualImpl, mutualStAB, mutualMap,
      from_resolver, get_resolver, _is_list, _is_optional, _is_union, fatType,
      TypeDefinition.fields, TypeDefinition.name, TypeDefinition.is_input,
      TypeDefinition.is_interface, TypeDefinition.interfaces,
      TypeDefinition.origin, TypeDefinition.description, FieldDefinition.name,
      FieldDefinition.type_, FieldDefinition.is_list, FieldDefinition.is_optional,
      FieldDefinition.is_union, FieldDefinition.arguments,
      FieldDefinition.description, FieldDefinition.deprecation_reason,
      FieldDefinition.is_subscription, FieldDefinition.resolverHandle,
      GType.isObjectImpl, hne, hne']
  · simp [forceObjectFields, from_field, get_graphql_type_field, get_graphql_type,
      from_object_type, buildFieldArguments, mutualEnv, attrs, lookupEnv,
      lookupTypeMap, mutualTd, mutualField, mutualImpl, mutualStAB, mutualMap,
      from_resolver, get_resolver, _is_list, _is_optional, _is_union, fatType,
      TypeDefinition.fields, TypeDefinition.name, TypeDefinition.is_input,
      TypeDefinition.is_interface, TypeDefinition.interfaces,
      TypeDefinition.origin, TypeDefinition.description, FieldDefinition.name,
      FieldDefinition.type_, FieldDefinition.is_list, FieldDefinition.is_optional,
      FieldDefinition.is_union, FieldDefinition.arguments,
      FieldDefinition.description, FieldDefinition.deprecation_reason,
      FieldDefinition.is_subscription, FieldDefinition.resolverHandle,
      GType.isObjectImpl, hne, hne']

/-- Witness for C4 at the concrete names `A` and `B`. -/
theorem C4_cycle_safety_witness :
    ("A" : String) ≠ "B" ∧
    (from_object_type (mutualEnv "A" "B" 3 4) 6 (.cls "A") initState =
        .ok (mutualImpl 0 "A" "B" 3, mutualStA "A" "B" 3 4) ∧
      forceObjectFields (mutualEnv "A" "B" 3 4) 10 (mutualTd "A" "B" 3).fields
          (mutualStAB "A" "B" 3 4) =
        .ok ([(some "ref", ⟨mutualImpl 1 "B" "A" 4, [], .external 3, Option.none,
                Option.none, Option.none⟩)],
             ⟨mutualMap "A" "B" 3 4, 2, 1, 0⟩)) := by
  refine ⟨by decide, ?_, ?_⟩
  · exact (C4_cycle_safety "A" "B" (by decide) 3 4 5).1
  · exact (C4_cycle_safety "A" "B" (by decide) 3 4 5).2.2.2.2.1

end StrawberrySchema
